import Mathlib

/-!
Verification development for the `jh` CLI (a terminal tool linking git
branches to Jira tickets).  The TypeScript sources are shallowly embedded:
strings become `List Char`, collaborator calls (git, Jira HTTP, config
store, `gh` CLI) become explicit outcome environments, and the React view
handlers become pure state-transition functions.  Theorems at the end of
the file settle the behavioural claims about this program.
-/

namespace JH

/-! ## Character classes (regex classes used in src/utils/slug.ts) -/

/-- The regex class `[A-Z]`. -/
def isUpperAZ (c : Char) : Bool := 'A' ≤ c && c ≤ 'Z'

/-- The regex class `[0-9]` (`\d`). -/
def isDigit09 (c : Char) : Bool := '0' ≤ c && c ≤ '9'

/-- The regex class `[A-Z0-9]`. -/
def isKeyChar (c : Char) : Bool := isUpperAZ c || isDigit09 c

/-- The regex class `[a-z]`. -/
def isLowerAZ (c : Char) : Bool := 'a' ≤ c && c ≤ 'z'

/-- The regex class `[a-z0-9-]`, the characters allowed in a slug. -/
def isSlugChar (c : Char) : Bool := isLowerAZ c || isDigit09 c || c = '-'

/-- JavaScript's regex class `\s` (whitespace), covering the ASCII
whitespace characters and the Unicode space separators that `\s` matches. -/
def isJsSpace (c : Char) : Bool :=
  c = ' ' || c = '\t' || c = '\n' || c = '\r' || c.val = 11 || c.val = 12 ||
  c.val = 0xa0 || c.val = 0x1680 || (0x2000 ≤ c.val && c.val ≤ 0x200a) ||
  c.val = 0x2028 || c.val = 0x2029 || c.val = 0x202f || c.val = 0x205f ||
  c.val = 0x3000 || c.val = 0xfeff

/-- The regex class `[̀-ͯ]` (combining diacritical marks),
removed by `slugify` after NFD normalization. -/
def isCombiningMark (c : Char) : Bool := 0x300 ≤ c.val && c.val ≤ 0x36f

/-! ## src/utils/slug.ts -/

/-- Helper implementing a JavaScript global regex replace of every maximal
run of characters satisfying `p` by the single character `rep`; the flag
records whether the previous character belonged to a run. -/
def collapseRunsAux (p : Char → Bool) (rep : Char) : Bool → List Char → List Char
  | _, [] => []
  | inRun, c :: rest =>
    if p c then
      if inRun then collapseRunsAux p rep true rest
      else rep :: collapseRunsAux p rep true rest
    else c :: collapseRunsAux p rep false rest

/-- `s.replace(/X+/g, rep)` for a character class `X`: every maximal run of
characters satisfying `p` is replaced by the single character `rep`. -/
def collapseRuns (p : Char → Bool) (rep : Char) (l : List Char) : List Char :=
  collapseRunsAux p rep false l

/-- `slugify` from src/utils/slug.ts.  `String.prototype.normalize('NFD')`
is a JavaScript platform builtin with no source in this repository, so the
NFD normalization is passed in as the parameter `nfd` (on pure-ASCII input
NFD is the identity).  Lowercasing is per-character (`Char.toLower`), which
agrees with `toLowerCase()` on the ASCII inputs of the examples; every
universal property proved below holds for an arbitrary `nfd` stage. -/
def slugify (nfd : List Char → List Char) (text : List Char) (maxLength : Nat) : List Char :=
  let s1 := text.map Char.toLower
  let s2 := nfd s1
  let s3 := s2.filter (fun c => !(isCombiningMark c))
  let s4 := collapseRuns (fun c => isJsSpace c || c = '_') '-' s3
  let s5 := s4.filter isSlugChar
  let s6 := collapseRuns (fun c => c = '-') '-' s5
  let s7 := (s6.dropWhile (fun c => c = '-')).rdropWhile (fun c => c = '-')
  let s8 := s7.take maxLength
  s8.rdropWhile (fun c => c = '-')

/-- `generateBranchName` from src/utils/slug.ts: `${ticketId}/${slug}`. -/
def generateBranchName (nfd : List Char → List Char) (ticketId title : List Char)
    (maxSlugLength : Nat) : List Char :=
  ticketId ++ '/' :: slugify nfd title maxSlugLength

/-- `extractTicketId` from src/utils/slug.ts: the JavaScript regex search
`branchName.match(/^([A-Z][A-Z0-9]*-\d+)/)`.  Because `-` is not in the
class `[A-Z0-9]`, the greedy match is equivalent to this maximal-munch
parse: one upper-case letter, the maximal run of `[A-Z0-9]`, a literal
`-`, and the maximal non-empty run of digits. -/
def extractTicketId (branchName : List Char) : Option (List Char) :=
  match branchName with
  | [] => none
  | a :: rest =>
    if isUpperAZ a then
      match rest.span isKeyChar with
      | (run, rest2) =>
        match rest2 with
        | '-' :: rest3 =>
          match rest3.span isDigit09 with
          | (digs, _) => if digs.isEmpty then none else some (a :: (run ++ '-' :: digs))
        | _ => none
    else none

/-- Numeric value of a digit string, `parseInt(s, 10)`. -/
def digitsToNat (l : List Char) : Nat :=
  l.foldl (fun n c => 10 * n + (c.toNat - '0'.toNat)) 0

/-- `parseTicketKey` from src/utils/slug.ts: the anchored full match
`key.match(/^([A-Z][A-Z0-9]*)-(\d+)$/)`; on failure the whole key is the
project and the number is `0`. -/
def parseTicketKey (key : List Char) : List Char × Nat :=
  match key with
  | [] => (key, 0)
  | a :: rest =>
    if isUpperAZ a then
      match rest.span isKeyChar with
      | (run, rest2) =>
        match rest2 with
        | '-' :: ds =>
          if !ds.isEmpty && ds.all isDigit09 then (a :: run, digitsToNat ds) else (key, 0)
        | _ => (key, 0)
    else (key, 0)

/-- Three-way code-point comparison of strings, the model of
`String.prototype.localeCompare` used by the ticket sort.  On the project
keys produced by `parseTicketKey` (characters in `[A-Z0-9]`) the default
locale collation coincides with code-point order. -/
def lexCmp : List Char → List Char → Int
  | [], [] => 0
  | [], _ :: _ => -1
  | _ :: _, [] => 1
  | a :: as, b :: bs => if a < b then -1 else if b < a then 1 else lexCmp as bs

/-- The comparator passed to `Array.prototype.sort` by `sortTicketsByKey`:
first `localeCompare` on the parsed project, then the numeric difference
`parsedB.number - parsedA.number` (descending numbers). -/
def ticketCmp {α : Type} (key : α → List Char) (a b : α) : Int :=
  let pa := parseTicketKey (key a)
  let pb := parseTicketKey (key b)
  let projectCompare := lexCmp pa.1 pb.1
  if projectCompare ≠ 0 then projectCompare
  else (pb.2 : Int) - (pa.2 : Int)

/-- Non-strict order induced by the sort comparator. -/
def ticketLE {α : Type} (key : α → List Char) (a b : α) : Bool :=
  ticketCmp key a b ≤ 0

/-- Stable insertion into a sorted list (an element is placed before the
first existing element it compares `≤` to, so earlier-listed ties stay
first, as with JavaScript's stable `Array.prototype.sort`). -/
def insertSorted {α : Type} (le : α → α → Bool) (x : α) : List α → List α
  | [] => [x]
  | y :: ys => if le x y then x :: y :: ys else y :: insertSorted le x ys

/-- Stable insertion sort. -/
def sortByLE {α : Type} (le : α → α → Bool) : List α → List α
  | [] => []
  | x :: xs => insertSorted le x (sortByLE le xs)

/-- `sortTicketsByKey` from src/utils/slug.ts.  The TypeScript function is
generic over `T extends \x7b key: string \x7d`; the field access `.key` is
embedded as the projection `key`.  It copies the array and sorts it with
`ticketCmp`. -/
def sortTicketsByKey {α : Type} (key : α → List Char) (ts : List α) : List α :=
  sortByLE (ticketLE key) ts

/-! Spec-side definitions for the slug/sort claims (written from the
spec's words, to be compared with the source embeddings above). -/

/-- Spec-side: a string matching the (whole) pattern `[A-Z][A-Z0-9]*-\d+`:
one upper-case letter, then letters/digits, then a hyphen, then at least
one digit. -/
def IsTicketPat (p : List Char) : Prop :=
  ∃ a mid d, p = a :: (mid ++ '-' :: d) ∧ isUpperAZ a = true ∧
    (∀ c ∈ mid, isKeyChar c = true) ∧ d ≠ [] ∧ (∀ c ∈ d, isDigit09 c = true)

/-- Spec-side: strict code-point lexicographic order on strings
("alphabetically"). -/
def lexLtB : List Char → List Char → Bool
  | [], [] => false
  | [], _ :: _ => true
  | _ :: _, [] => false
  | a :: as, b :: bs => decide (a < b) || (decide (a = b) && lexLtB as bs)

/-- Spec-side ordering of tickets stated by the spec: alphabetically by
project key and, within a project, by descending numeric suffix. -/
def SpecTicketOrder (pa pb : List Char × Nat) : Prop :=
  lexLtB pa.1 pb.1 = true ∨ (pa.1 = pb.1 ∧ pb.2 ≤ pa.2)

/-! ## src/services/config.ts -/

/-- A Jira workspace entry of the configuration document. -/
structure JiraWorkspace where
  domain : List Char
  email : List Char
  defaultProject : List Char
deriving DecidableEq

/-- The `defaults` section of the configuration document. -/
structure ConfigDefaults where
  branchFormat : List Char
  slugMaxLength : Nat
  defaultIssueType : List Char
  baseBranch : List Char
deriving DecidableEq

/-- The parsed configuration document (`JhCliConfig`).  The records
`jira.workspaces` and `mappings` are embedded as association lists. -/
structure JhCliConfig where
  version : Nat
  defaults : ConfigDefaults
  workspaces : List (List Char × JiraWorkspace)
  mappings : List (List Char × List Char)
deriving DecidableEq

/-- Outcomes of the configuration/credential store.  `loadResult` is the
outcome of `ConfigManager.load()` (file read + YAML parse + schema
validation), which can reject; `token` is `getJiraToken`, which never
rejects because `loadCredentials` catches all failures. -/
structure ConfigEnv where
  loadResult : Except (List Char) JhCliConfig
  token : List Char → Option (List Char)

/-- `ConfigManager.resolveWorkspace`: exact mapping match first, then the
`owner/*` wildcard.  `repoIdentifier.split('/')[0]` is the part before the
first `/`.  Note the unguarded `load()`: a load failure propagates. -/
def resolveWorkspace (env : ConfigEnv) (repoIdentifier : List Char) :
    Except (List Char) (Option (List Char)) :=
  match env.loadResult with
  | .error e => .error e
  | .ok config =>
    match config.mappings.lookup repoIdentifier with
    | some ws => .ok (some ws)
    | none =>
      let owner := repoIdentifier.takeWhile (fun c => c ≠ '/')
      let wildcardKey := owner ++ "/*".toList
      .ok (config.mappings.lookup wildcardKey)

/-- `ConfigManager.getWorkspaceConfig`: also an unguarded `load()`. -/
def getWorkspaceConfig (env : ConfigEnv) (name : List Char) :
    Except (List Char) (Option JiraWorkspace) :=
  match env.loadResult with
  | .error e => .error e
  | .ok config => .ok (config.workspaces.lookup name)

/-! ## src/services/git.ts (collaborator boundary)

Every read method of `GitManager` used by `ContextService` wraps its git
invocation in `try/catch` and returns a default on failure (`isGitRepo`
returns `false`, `getCurrentBranch`/`getRepoIdentifier` return `null`,
`getCommitsAhead` returns `0`), so at this boundary they are total. -/

structure GitEnv where
  isGitRepo : Bool
  currentBranch : Option (List Char)
  repoIdentifier : Option (List Char)
  commitsAhead : List Char → Nat

/-- `AppContext` from src/services/context.ts. -/
structure AppContext where
  isGitRepo : Bool
  currentBranch : Option (List Char)
  repoIdentifier : Option (List Char)
  workspaceName : Option (List Char)
  workspace : Option JiraWorkspace
  linkedTicketId : Option (List Char)
  commitsAhead : Nat
deriving DecidableEq

/-- The initial all-default context built at the top of `getContext`. -/
def defaultAppContext : AppContext :=
  { isGitRepo := false, currentBranch := none, repoIdentifier := none,
    workspaceName := none, workspace := none, linkedTicketId := none,
    commitsAhead := 0 }

/-- Calls `getContext` can make against the configuration store or the
network.  `getContext` never constructs a Jira client, so only
`configLoad` is ever emitted; the `network` constructor exists so that the
absence of network calls is expressible. -/
inductive CollabCall where
  | configLoad
  | network
deriving DecidableEq

/-- Tail of `getContext`: extract the linked ticket id from the branch
name and best-effort compute commits-ahead (the `try \x7b load ... \x7d
catch \x7b\x7d` block: a config-load failure here leaves `commitsAhead`
at 0). -/
def finishContext (cfg : ConfigEnv) (git : GitEnv) (branch rid : Option (List Char))
    (wsName : Option (List Char)) (ws : Option JiraWorkspace) (calls : List CollabCall) :
    Except (List Char) AppContext × List CollabCall :=
  let linked := match branch with
    | some b => extractTicketId b
    | none => none
  match cfg.loadResult with
  | .ok config =>
    (.ok { isGitRepo := true, currentBranch := branch, repoIdentifier := rid,
           workspaceName := wsName, workspace := ws, linkedTicketId := linked,
           commitsAhead := git.commitsAhead config.defaults.baseBranch },
     calls ++ [.configLoad])
  | .error _ =>
    (.ok { isGitRepo := true, currentBranch := branch, repoIdentifier := rid,
           workspaceName := wsName, workspace := ws, linkedTicketId := linked,
           commitsAhead := 0 },
     calls ++ [.configLoad])

/-- `ContextService.getContext` from src/services/context.ts, paired with
the list of configuration-store/network calls it makes.
`ContextService.extractTicketId` is the same regex as
`extractTicketId` in src/utils/slug.ts and is embedded by that single
definition.  The calls to `resolveWorkspace` and `getWorkspaceConfig` are
not wrapped in any `try/catch`, so their `load()` failures propagate. -/
def getContext (cfg : ConfigEnv) (git : GitEnv) :
    Except (List Char) AppContext × List CollabCall :=
  if !git.isGitRepo then (.ok defaultAppContext, [])
  else
    let branch := git.currentBranch
    match git.repoIdentifier with
    | none => finishContext cfg git branch none none none []
    | some r =>
      match resolveWorkspace cfg r with
      | .error e => (.error e, [.configLoad])
      | .ok none => finishContext cfg git branch (some r) none none [.configLoad]
      | .ok (some name) =>
        match getWorkspaceConfig cfg name with
        | .error e => (.error e, [.configLoad, .configLoad])
        | .ok ws =>
          finishContext cfg git branch (some r) (some name) ws
            [.configLoad, .configLoad]

/-! ## src/clients/jira.ts (the pieces the claims touch) -/

/-- `JiraIssue` as returned by the client. -/
structure JiraIssue where
  key : List Char
  summary : List Char
  status : List Char
  issueType : List Char
  description : Option (List Char)
  assignee : Option (List Char)
  sprint : Option (List Char)
deriving DecidableEq

/-- A Jira workflow transition. -/
structure JiraTransition where
  id : List Char
  name : List Char
  toStatus : List Char
deriving DecidableEq

/-- Raw HTTP outcomes used by `JiraClient.transitionIssue`. -/
structure JiraTransEnv where
  getTransitions : Except (List Char) (List JiraTransition)
  postTransition : Except (List Char) Unit

/-- `toLowerCase()`. -/
def lowerStr (l : List Char) : List Char := l.map Char.toLower

/-! ## src/views/start-work.tsx -/

/-- The step enumeration of the start-work view. -/
inductive SWStep where
  | loading | selectTicket | confirmBranch | creating | done | error
deriving DecidableEq

/-- View-local state of the start-work view. -/
structure SWState where
  step : SWStep
  tickets : List JiraIssue
  selectedTicket : Option JiraIssue
  branchName : List Char
  error : List Char
  confirmIndex : Nat
deriving DecidableEq

/-- Collaborator mutations and best-effort calls issued by the start-work
creating step. -/
inductive SWEffect where
  | createdBranch (name base : List Char)
  | checkedOut (name : List Char)
  | transitionAttempt (ticketKey transitionName : List Char)
  | transitionPosted (ticketKey transitionId : List Char)
  | contextRefreshed
deriving DecidableEq

/-- `JiraClient.transitionIssue`: fetches the available transitions, finds
one whose lowercased name equals the lowercased requested name, posts it,
and swallows every failure (the whole body is `try/catch \x7b\x7d`), so
the call always returns.  The result is the list of effects that took
place. -/
def transitionIssue (env : JiraTransEnv) (ticketId transitionName : List Char) :
    List SWEffect :=
  match env.getTransitions with
  | .error _ => [.transitionAttempt ticketId transitionName]
  | .ok ts =>
    match ts.find? (fun t => lowerStr t.name == lowerStr transitionName) with
    | none => [.transitionAttempt ticketId transitionName]
    | some t =>
      match env.postTransition with
      | .ok _ => [.transitionAttempt ticketId transitionName,
                  .transitionPosted ticketId t.id]
      | .error _ => [.transitionAttempt ticketId transitionName]

/-- Outcomes of the collaborators used by `handleCreateBranch`.
`branchExists` and `token` are total (their sources catch internally);
`refresh` is the outcome of the router's `refreshContext()` callback. -/
structure SWEnv where
  branchExists : Bool
  loadResult : Except (List Char) JhCliConfig
  createBranch : Except (List Char) Unit
  checkoutBranch : Except (List Char) Unit
  token : Option (List Char)
  trans : JiraTransEnv
  refresh : Except (List Char) Unit

/-- `handleTicketSelect` from src/views/start-work.tsx: stores the ticket,
derives the branch name with the hard-coded `slugMaxLength = 50` (the
source's `const config = \x7b slugMaxLength: 50 \x7d`), and advances to
the confirm step. -/
def handleTicketSelect (nfd : List Char → List Char) (st : SWState) (item : JiraIssue) :
    SWState :=
  { st with selectedTicket := some item,
            branchName := generateBranchName nfd item.key item.summary 50,
            step := .confirmBranch }

/-- Tail of `handleCreateBranch` after the branch mutations: the
best-effort Jira transition (guarded by `context.workspace &&
context.workspaceName` and a present token, its failures ignored), the
context refresh, and the transition to `done`. -/
def swAfterMutations (env : SWEnv) (wsName : Option (List Char))
    (ws : Option JiraWorkspace) (selectedTicket : JiraIssue) (st : SWState)
    (effs : List SWEffect) : SWState × List SWEffect :=
  let transEffs :=
    match ws, wsName with
    | some _, some _ =>
      match env.token with
      | some _ => transitionIssue env.trans selectedTicket.key "In Progress".toList
      | none => []
    | _, _ => []
  match env.refresh with
  | .error e => ({ st with error := e, step := .error }, effs ++ transEffs)
  | .ok _ => ({ st with step := .done }, effs ++ transEffs ++ [.contextRefreshed])

/-- `handleCreateBranch` from src/views/start-work.tsx.  Every failure of
a primary call (`load`, `createBranch`, `checkoutBranch`, the refresh) is
caught by the outer `try/catch` and becomes the `error` step with the
message captured; the Jira transition is best-effort. -/
def handleCreateBranch (env : SWEnv) (wsName : Option (List Char))
    (ws : Option JiraWorkspace) (checkout : Bool) (st : SWState) :
    SWState × List SWEffect :=
  match st.selectedTicket with
  | none => (st, [])
  | some selectedTicket =>
    let st1 := { st with step := SWStep.creating }
    if env.branchExists then
      ({ st1 with error := "Branch \"".toList ++ st.branchName ++ "\" already exists.".toList,
                  step := .error }, [])
    else
      match env.loadResult with
      | .error e => ({ st1 with error := e, step := .error }, [])
      | .ok config =>
        match env.createBranch with
        | .error e => ({ st1 with error := e, step := .error }, [])
        | .ok _ =>
          let effs := [SWEffect.createdBranch st.branchName config.defaults.baseBranch]
          if checkout then
            match env.checkoutBranch with
            | .error e => ({ st1 with error := e, step := .error }, effs)
            | .ok _ =>
              swAfterMutations env wsName ws selectedTicket st1
                (effs ++ [.checkedOut st.branchName])
          else
            swAfterMutations env wsName ws selectedTicket st1 effs

/-- Outcome of pressing enter on the start-work confirm step (the
`key.return` branch of its `useInput` handler). -/
inductive SWConfirmOutcome where
  | create (checkout : Bool)
  | goto (s : SWStep)
deriving DecidableEq

/-- The labels rendered by the start-work confirm step, in cursor order. -/
def startWorkConfirmActions : List (List Char) :=
  ["Create and checkout".toList, "Create only (don't checkout)".toList, "Back".toList]

/-- Enter dispatch of the start-work confirm step. -/
def startWorkConfirmEnter (confirmIndex : Nat) : SWConfirmOutcome :=
  if confirmIndex = 0 then .create true
  else if confirmIndex = 1 then .create false
  else .goto .selectTicket

/-! ## src/views/new-ticket.tsx (confirm step) -/

/-- The step enumeration of the new-ticket view. -/
inductive NTStep where
  | loading | selectType | enterTitle | enterDescription | confirm | creating | done | error
deriving DecidableEq

/-- Outcome of pressing enter on the new-ticket confirm step. -/
inductive NTConfirmOutcome where
  | create (createBranch : Bool)
  | goto (s : NTStep)
deriving DecidableEq

/-- The labels rendered by the new-ticket confirm step, in cursor order. -/
def newTicketConfirmActions : List (List Char) :=
  ["Create ticket and branch".toList, "Create ticket only".toList, "Back".toList]

/-- Enter dispatch of the new-ticket confirm step. -/
def newTicketConfirmEnter (confirmIndex : Nat) : NTConfirmOutcome :=
  if confirmIndex = 0 then .create true
  else if confirmIndex = 1 then .create false
  else .goto .enterDescription

/-! ## src/views/create-ticket-from-branch.tsx -/

/-- An issue type returned by `getIssueTypes`. -/
structure IssueType where
  id : List Char
  name : List Char
  description : Option (List Char)
deriving DecidableEq

/-- A sprint returned by `getActiveSprints`. -/
structure JiraSprint where
  id : Nat
  name : List Char
  state : List Char
deriving DecidableEq

/-- The current Jira user. -/
structure JiraUser where
  accountId : List Char
  displayName : List Char
  emailAddress : List Char
deriving DecidableEq

/-- The parameter object passed to `JiraClient.createIssue`. -/
structure CreateIssueParams where
  projectKey : List Char
  summary : List Char
  issueType : List Char
  description : Option (List Char)
  assigneeId : Option (List Char)
  reporterId : Option (List Char)
  sprintId : Option Nat
  startDate : Option (List Char)
  dueDate : Option (List Char)
deriving DecidableEq

/-- The step enumeration of the create-ticket-from-branch view. -/
inductive CTFBStep where
  | loading | selectType | editTitle | editDescription | selectSprint
  | editStartDate | editDueDate | confirm | creating | done | error
deriving DecidableEq

/-- View-local state of the create-ticket-from-branch view.  `hasClient`
records whether `jiraClient` was set by the loading step. -/
structure CTFBState where
  step : CTFBStep
  error : List Char
  issueTypes : List IssueType
  sprints : List JiraSprint
  currentUser : Option JiraUser
  hasClient : Bool
  selectedTypeIndex : Nat
  title : List Char
  description : List Char
  selectedSprintIndex : Nat
  startDate : List Char
  dueDate : List Char
  confirmIndex : Nat
  createdTicketKey : List Char
  createdBranchName : List Char
deriving DecidableEq

/-- Collaborator calls issued by the create-ticket-from-branch creating
step. -/
inductive CTFBEffect where
  | createIssueCall (params : CreateIssueParams)
  | renamedBranch (oldName newName : List Char)
  | contextRefreshed
deriving DecidableEq

/-- Outcomes of the collaborators used by the create-ticket-from-branch
`handleCreate`. -/
structure CTFBEnv where
  createIssue : Except (List Char) JiraIssue
  loadResult : Except (List Char) JhCliConfig
  renameBranch : Except (List Char) Unit
  refresh : Except (List Char) Unit

/-- `handleCreate` from src/views/create-ticket-from-branch.tsx: creates
the issue, loads the config, renames the current branch to
`generateBranchName(ticket.key, title, slugMaxLength)` inside an inner
`try/catch` whose failure is swallowed (keeping the original branch name),
refreshes the context and reaches `done`; a failure of `createIssue`,
`load` or the refresh is caught by the outer `try/catch` and becomes the
`error` step. -/
def ctfbHandleCreate (nfd : List Char → List Char) (env : CTFBEnv)
    (currentBranch : Option (List Char)) (ws : Option JiraWorkspace)
    (st : CTFBState) : CTFBState × List CTFBEffect :=
  match st.hasClient, ws, st.currentUser with
  | true, some workspace, some currentUser =>
    let st1 := { st with step := CTFBStep.creating }
    let selectedType := st.issueTypes.get? st.selectedTypeIndex
    let selectedSprint := st.sprints.get? st.selectedSprintIndex
    let params : CreateIssueParams :=
      { projectKey := workspace.defaultProject,
        summary := st.title,
        issueType := match selectedType with
          | some t => t.name
          | none => "Task".toList,
        description := if st.description.isEmpty then none else some st.description,
        assigneeId := some currentUser.accountId,
        reporterId := some currentUser.accountId,
        sprintId := selectedSprint.map (fun s => s.id),
        startDate := if st.startDate.isEmpty then none else some st.startDate,
        dueDate := if st.dueDate.isEmpty then none else some st.dueDate }
    match env.createIssue with
    | .error e => ({ st1 with error := e, step := .error }, [.createIssueCall params])
    | .ok ticket =>
      let st2 := { st1 with createdTicketKey := ticket.key }
      match env.loadResult with
      | .error e => ({ st2 with error := e, step := .error }, [.createIssueCall params])
      | .ok config =>
        let newBranchName :=
          generateBranchName nfd ticket.key st.title config.defaults.slugMaxLength
        let old := match currentBranch with
          | some b => b
          | none => []
        match env.renameBranch with
        | .ok _ =>
          let st3 := { st2 with createdBranchName := newBranchName }
          match env.refresh with
          | .error e => ({ st3 with error := e, step := .error },
                         [.createIssueCall params, .renamedBranch old newBranchName])
          | .ok _ => ({ st3 with step := .done },
                      [.createIssueCall params, .renamedBranch old newBranchName,
                       .contextRefreshed])
        | .error _ =>
          let st3 := { st2 with createdBranchName := old }
          match env.refresh with
          | .error e => ({ st3 with error := e, step := .error }, [.createIssueCall params])
          | .ok _ => ({ st3 with step := .done }, [.createIssueCall params, .contextRefreshed])
  | _, _, _ => (st, [])

/-- Outcome of pressing enter on the create-ticket-from-branch confirm
step: index 0 runs `handleCreate`, any other index calls
`navigate('main')`. -/
inductive CTFBConfirmOutcome where
  | create
  | navigateMain
deriving DecidableEq

/-- The labels rendered by the create-ticket-from-branch confirm step, in
cursor order. -/
def ctfbConfirmActions : List (List Char) :=
  ["Create ticket and rename branch".toList, "Cancel".toList]

/-- Enter dispatch of the create-ticket-from-branch confirm step. -/
def ctfbConfirmEnter (confirmIndex : Nat) : CTFBConfirmOutcome :=
  if confirmIndex = 0 then .create else .navigateMain

/-! ## src/views/create-pr.tsx -/

/-- `needle` occurs as a contiguous substring of `hay`
(JavaScript `hay.includes(needle)`). -/
def containsSub (needle : List Char) : List Char → Bool
  | [] => needle.isEmpty
  | c :: rest => needle.isPrefixOf (c :: rest) || containsSub needle rest

/-- `getJiraIssueUrl` from src/utils/browser.ts. -/
def getJiraIssueUrl (domain issueKey : List Char) : List Char :=
  "https://".toList ++ domain ++ "/browse/".toList ++ issueKey

/-- The step enumeration of the create-pr view. -/
inductive CPRStep where
  | loading | pushNeeded | pushing | editTitle | editBody | confirm | creating | done | error
deriving DecidableEq

/-- View-local state of the create-pr view. -/
structure CPRState where
  step : CPRStep
  error : List Char
  ticket : Option JiraIssue
  jiraUrl : List Char
  needsPush : Bool
  baseBranch : List Char
  title : List Char
  body : List Char
  pushIndex : Nat
  confirmIndex : Nat
  prUrl : List Char
deriving DecidableEq

/-- Outcomes of the collaborators used by the create-pr view.  `push1` is
`git push -u origin <branch>`, `push2` the retry `git push origin
<branch>` without the upstream flag, `ghCreate` the stdout of
`gh pr create`, `gitStatus` the stdout of `git status -sb`. -/
structure CPREnv where
  token : Option (List Char)
  getIssue : Except (List Char) (Option JiraIssue)
  loadResult : Except (List Char) JhCliConfig
  gitStatus : Except (List Char) (List Char)
  push1 : Except (List Char) Unit
  push2 : Except (List Char) Unit
  ghCreate : Except (List Char) (List Char)

/-- Push/PR-creation calls issued by the create-pr view. -/
inductive CPREffect where
  | push (upstream : Bool)
  | ghPrCreate (base title body : List Char)
deriving DecidableEq

/-- The push-needed decision of `loadData`: the branch is considered to
need a push when `git status -sb` fails, or its output has no `...`
upstream marker, or its output mentions `ahead`. -/
def branchNeedsPushDecision (gitStatus : Except (List Char) (List Char)) : Bool :=
  match gitStatus with
  | .ok stdout => !(containsSub "...".toList stdout) || containsSub "ahead".toList stdout
  | .error _ => true

/-- Whether `ticketData.description` is truthy in JavaScript. -/
def descTruthy (t : JiraIssue) : Bool :=
  match t.description with
  | some d => !d.isEmpty
  | none => false

/-- The PR body pre-filled by `loadData`: the fixed template with the
ticket link, the summary, the optional description section, and the test
plan stub, joined with newlines. -/
def prBodyTemplate (t : JiraIssue) (url : List Char) : List Char :=
  let head := ["## Jira Ticket".toList,
               '[' :: t.key ++ ']' :: '(' :: url ++ [')'],
               [],
               "## Summary".toList,
               t.summary,
               []]
  let mid := if descTruthy t then
      ["## Description".toList,
       (match t.description with
        | some d => d
        | none => []),
       []]
    else []
  let tail := ["## Test Plan".toList, "- [ ] TODO: Add test plan".toList]
  List.intercalate ['\n'] (head ++ mid ++ tail)

/-- `loadData` from src/views/create-pr.tsx: resolves the linked ticket,
pre-fills title and body, reads the base branch from the config, decides
whether a push-needed step must be inserted before the title/body steps,
and moves to `pushNeeded` or `editTitle` accordingly. -/
def prLoadData (env : CPREnv) (ws : Option JiraWorkspace)
    (wsName linkedTicketId : Option (List Char)) (st : CPRState) : CPRState :=
  match ws, wsName, linkedTicketId with
  | some workspace, some _, some ticketId =>
    match env.token with
    | none => { st with error := "Jira token not found.".toList, step := .error }
    | some _ =>
      match env.getIssue with
      | .error e => { st with error := e, step := .error }
      | .ok none => { st with error := "Ticket not found.".toList, step := .error }
      | .ok (some ticketData) =>
        let url := getJiraIssueUrl workspace.domain ticketId
        match env.loadResult with
        | .error e => { st with error := e, step := .error }
        | .ok config =>
          let branchNeedsPush := branchNeedsPushDecision env.gitStatus
          { st with ticket := some ticketData,
                    jiraUrl := url,
                    baseBranch := config.defaults.baseBranch,
                    needsPush := branchNeedsPush,
                    title := ticketData.key ++ ": ".toList ++ ticketData.summary,
                    body := prBodyTemplate ticketData url,
                    step := if branchNeedsPush then .pushNeeded else .editTitle }
  | _, _, _ => { st with error := "No linked ticket found.".toList, step := .error }

/-- `handlePush` from src/views/create-pr.tsx (the explicit push-needed
step): push with the upstream flag; if the failure message contains
`already exists`, retry without it; any remaining failure becomes the
`error` step, success clears `needsPush` and moves to `editTitle`. -/
def prHandlePush (env : CPREnv) (st : CPRState) : CPRState × List CPREffect :=
  match env.push1 with
  | .ok _ => ({ st with needsPush := false, step := .editTitle }, [.push true])
  | .error m =>
    if containsSub "already exists".toList m then
      match env.push2 with
      | .ok _ => ({ st with needsPush := false, step := .editTitle }, [.push true, .push false])
      | .error m2 => ({ st with error := m2, step := .error }, [.push true, .push false])
    else ({ st with error := m, step := .error }, [.push true])

/-- `title.replace(/"/g, '\\"')`. -/
def escapeQuotes (l : List Char) : List Char :=
  l.flatMap fun c => if c = '"' then ['\\', '"'] else [c]

/-- `body.replace(/"/g, '\\"')` followed by escaping every backtick. -/
def escapeBody (l : List Char) : List Char :=
  l.flatMap fun c =>
    if c = '"' then ['\\', '"']
    else if c = Char.ofNat 96 then ['\\', Char.ofNat 96]
    else [c]

/-- `trim()` with JavaScript's whitespace class. -/
def trimStr (l : List Char) : List Char :=
  (l.dropWhile isJsSpace).rdropWhile isJsSpace

/-- The regex search `stdout.match(/https:\/\/github\.com\/[^\s]+/)`:
the first occurrence of the literal followed by at least one non-space
character, extended maximally. -/
def firstGithubUrl : List Char → Option (List Char)
  | [] => none
  | c :: rest =>
    let lit := "https://github.com/".toList
    if lit.isPrefixOf (c :: rest) then
      let run := ((c :: rest).drop lit.length).takeWhile (fun x => !isJsSpace x)
      if run.isEmpty then firstGithubUrl rest else some (lit ++ run)
    else firstGithubUrl rest

/-- The outer `catch` of the create-pr `handleCreate`: a message
containing `already exists` is replaced by a fixed explanation, any other
message is surfaced verbatim; the step becomes `error`. -/
def prCatch (st : CPRState) (m : List Char) : CPRState :=
  if containsSub "already exists".toList m then
    { st with error := "A pull request already exists for this branch.".toList, step := .error }
  else { st with error := m, step := .error }

/-- Tail of the create-pr `handleCreate` after the push block: run
`gh pr create` with the escaped title/body, extract the PR URL from its
stdout, and reach `done`; a failure goes to the outer catch. -/
def prAfterPush (env : CPREnv) (st : CPRState) (effs : List CPREffect) :
    CPRState × List CPREffect :=
  let cmdEffs := effs ++ [CPREffect.ghPrCreate st.baseBranch (escapeQuotes st.title)
                            (escapeBody st.body)]
  match env.ghCreate with
  | .error m => (prCatch st m, cmdEffs)
  | .ok stdout =>
    let prUrl := match firstGithubUrl stdout with
      | some u => u
      | none => trimStr stdout
    ({ st with prUrl := prUrl, step := .done }, cmdEffs)

/-- `handleCreate` from src/views/create-pr.tsx: always push first (with
the upstream flag); a push failure mentioning `already exists` or `set up
to track` is retried without the flag, one mentioning `Everything
up-to-date` is treated as success, and any other one aborts with
`Failed to push branch: <message>` before `gh pr create` is ever run. -/
def prHandleCreate (env : CPREnv) (st : CPRState) : CPRState × List CPREffect :=
  match st.ticket with
  | none => (st, [])
  | some _ =>
    let st1 := { st with step := CPRStep.creating }
    match env.push1 with
    | .ok _ => prAfterPush env st1 [.push true]
    | .error m =>
      if containsSub "already exists".toList m || containsSub "set up to track".toList m then
        match env.push2 with
        | .ok _ => prAfterPush env st1 [.push true, .push false]
        | .error m2 => (prCatch st1 m2, [.push true, .push false])
      else if !(containsSub "Everything up-to-date".toList m) then
        (prCatch st1 ("Failed to push branch: ".toList ++ m), [.push true])
      else prAfterPush env st1 [.push true]

/-! ## The SelectList component (src/components)

The terminal key-capture layer is an external collaborator: a keypress is
delivered to `useInput` as a flag record plus the printable input string
(empty for named keys such as return, escape and the arrows). -/

/-- A keypress as delivered by the terminal layer to `useInput`. -/
structure KeyEvt where
  ret : Bool
  up : Bool
  down : Bool
  escape : Bool
  backspace : Bool
  del : Bool
  ctrl : Bool
  meta : Bool
  inp : List Char

/-- The enter keypress: the return flag with no printable input. -/
def enterEvt : KeyEvt :=
  { ret := true, up := false, down := false, escape := false, backspace := false,
    del := false, ctrl := false, meta := false, inp := [] }

/-- Props of a mounted `SelectList`: the item list, whether an `onBack`
callback was supplied, the `searchable` flag, and the Fuse.js fuzzy search
(an external collaborator: an arbitrary function from the query to a
result list). -/
structure SLConfig (ι : Type) where
  items : List ι
  hasBack : Bool
  searchable : Bool
  fuse : List Char → List ι

/-- `SelectList` state: `selectedIndex` (an integer, since moving up in an
empty list stores `filteredItems.length - 1 = -1`), `searchQuery`, and
`filteredItems`. -/
structure SLState (ι : Type) where
  idx : Int
  query : List Char
  filtered : List ι

/-- What a keypress caused: nothing, `onSelect` of
`filteredItems[selectedIndex]` (undefined — `none` — when out of bounds),
or `onBack`. -/
inductive SLOut (ι : Type) where
  | none
  | selected (it : Option ι)
  | back

/-- The body of the filtering `useEffect`: without a search term the
unfiltered items, otherwise the Fuse.js results; it always resets the
selection index to 0. -/
def slRefilter {ι : Type} (cfg : SLConfig ι) (q : List Char) : List ι :=
  if !cfg.searchable || q.isEmpty then cfg.items else cfg.fuse q

/-- Applying a query update: React re-runs the filtering effect only when
the stored query actually changed. -/
def slApplyQuery {ι : Type} (cfg : SLConfig ι) (st : SLState ι) (q : List Char) :
    SLState ι :=
  if q = st.query then st
  else { idx := 0, query := q, filtered := slRefilter cfg q }

/-- Re-running the filtering effect when the `items` prop changes to the
list of a new configuration. -/
def slItemsEffect {ι : Type} (cfg : SLConfig ι) (st : SLState ι) : SLState ι :=
  { st with idx := 0, filtered := slRefilter cfg st.query }

/-- The regex class `[a-zA-Z0-9\s-]` accepted into the search query. -/
def jsSearchChar (c : Char) : Bool :=
  isLowerAZ c || isUpperAZ c || isDigit09 c || isJsSpace c || c = '-'

/-- The `useInput` handler of `SelectList`, combined with the filtering
effect it triggers: escape calls `onBack` when present; enter selects the
current item only when the filtered list is non-empty; the arrows move the
cursor with circular wrap-around; printable input edits the search query,
which re-filters and resets the cursor. -/
def slInput {ι : Type} (cfg : SLConfig ι) (st : SLState ι) (k : KeyEvt) :
    SLState ι × SLOut ι :=
  if k.escape && cfg.hasBack then (st, .back)
  else if k.ret && decide (0 < st.filtered.length) then
    (st, .selected (if st.idx < 0 then none else st.filtered.get? st.idx.toNat))
  else if k.up then
    ({ st with idx := if st.idx > 0 then st.idx - 1 else (st.filtered.length : Int) - 1 },
     .none)
  else if k.down then
    ({ st with idx := if st.idx < (st.filtered.length : Int) - 1 then st.idx + 1 else 0 },
     .none)
  else if cfg.searchable && !k.inp.isEmpty && !k.ctrl && !k.meta then
    if k.backspace || k.del then (slApplyQuery cfg st st.query.dropLast, .none)
    else match k.inp with
      | [c] => if jsSearchChar c then (slApplyQuery cfg st (st.query ++ [c]), .none)
               else (st, .none)
      | _ => (st, .none)
  else (st, .none)

/-- The state of a freshly mounted `SelectList` (after its initial
filtering effect, which stores the unfiltered items and index 0). -/
def slInit {ι : Type} (cfg : SLConfig ι) : SLState ι :=
  { idx := 0, query := [], filtered := cfg.items }

/-- States reachable by a mounted `SelectList`: the initial state, any
keypress, and any re-run of the filtering effect caused by an `items`
prop change. -/
inductive SLReach {ι : Type} : SLConfig ι → SLState ι → Prop where
  | init (cfg : SLConfig ι) : SLReach cfg (slInit cfg)
  | step (cfg : SLConfig ι) (s : SLState ι) (k : KeyEvt) :
      SLReach cfg s → SLReach cfg (slInput cfg s k).1
  | itemsStep (cfg cfg' : SLConfig ι) (s : SLState ι) :
      SLReach cfg s → SLReach cfg' (slItemsEffect cfg' s)

/-- The cursor invariant: whenever the filtered list is non-empty, the
selection index is in bounds. -/
def SLInv {ι : Type} (st : SLState ι) : Prop :=
  0 < st.filtered.length → 0 ≤ st.idx ∧ st.idx < st.filtered.length

/-! ## Concrete fixtures used to instantiate theorems -/

/-- A configuration document with the default settings (base branch
`main`, slug length 50). -/
def cfgMainW : JhCliConfig :=
  { version := 1,
    defaults := { branchFormat := "{ticketId}/{slug}".toList, slugMaxLength := 50,
                  defaultIssueType := "Task".toList, baseBranch := "main".toList },
    workspaces := [], mappings := [] }

/-- A sample workspace. -/
def wsW : JiraWorkspace :=
  { domain := "acme.atlassian.net".toList, email := "dev@acme.com".toList,
    defaultProject := "PROJ".toList }

/-- The ticket of the start-work scenario. -/
def tktPROJ7 : JiraIssue :=
  { key := "PROJ-7".toList, summary := "Add login page".toList,
    status := "To Do".toList, issueType := "Task".toList,
    description := none, assignee := none, sprint := none }

/-- A sample ticket. -/
def tktPROJ9 : JiraIssue :=
  { key := "PROJ-9".toList, summary := "Oauth refresh".toList,
    status := "To Do".toList, issueType := "Task".toList,
    description := none, assignee := none, sprint := none }

/-- A sample user. -/
def userW : JiraUser :=
  { accountId := "u1".toList, displayName := "Dev".toList,
    emailAddress := "dev@acme.com".toList }

/-- A start-work environment in which every collaborator succeeds. -/
def swEnvW : SWEnv :=
  { branchExists := false, loadResult := Except.ok cfgMainW,
    createBranch := Except.ok (), checkoutBranch := Except.ok (),
    token := some "tok".toList, trans := ⟨Except.ok [], Except.ok ()⟩,
    refresh := Except.ok () }

/-- The start-work select-ticket state. -/
def swStW : SWState :=
  { step := SWStep.selectTicket, tickets := [], selectedTicket := none,
    branchName := [], error := [], confirmIndex := 0 }

/-- A create-ticket-from-branch confirm state with a mounted client and a
known user. -/
def ctfbStW : CTFBState :=
  { step := CTFBStep.confirm, error := [], issueTypes := [], sprints := [],
    currentUser := some userW, hasClient := true, selectedTypeIndex := 0,
    title := "Oauth refresh".toList, description := [], selectedSprintIndex := 0,
    startDate := [], dueDate := [], confirmIndex := 0, createdTicketKey := [],
    createdBranchName := [] }

/-- A create-ticket-from-branch environment whose rename fails. -/
def ctfbEnvW : CTFBEnv :=
  { createIssue := Except.ok tktPROJ9, loadResult := Except.ok cfgMainW,
    renameBranch := Except.error "rename failed".toList, refresh := Except.ok () }

/-- A create-pr confirm state with a resolved ticket. -/
def cprStW : CPRState :=
  { step := CPRStep.confirm, error := [], ticket := some tktPROJ9, jiraUrl := [],
    needsPush := false, baseBranch := "main".toList, title := "t".toList,
    body := "b".toList, pushIndex := 0, confirmIndex := 0, prUrl := [] }

/-- The create-pr loading state. -/
def cprLoadStW : CPRState :=
  { step := CPRStep.loading, error := [], ticket := none, jiraUrl := [],
    needsPush := false, baseBranch := "main".toList, title := [], body := [],
    pushIndex := 0, confirmIndex := 0, prUrl := [] }

/-- A create-pr environment in which every collaborator succeeds and the
branch has an up-to-date upstream. -/
def cprEnvOkW : CPREnv :=
  { token := some "tok".toList, getIssue := Except.ok (some tktPROJ9),
    loadResult := Except.ok cfgMainW, gitStatus := Except.ok "## b...origin/b".toList,
    push1 := Except.ok (), push2 := Except.ok (),
    ghCreate := Except.ok "https://github.com/acme/app/pull/1".toList }

/-- The same environment with a push failure that asks for a retry. -/
def cprEnvRetryW : CPREnv :=
  { cprEnvOkW with push1 := Except.error "branch already exists on remote".toList }

/-- The same environment with an idempotent-push failure. -/
def cprEnvUpToDateW : CPREnv :=
  { cprEnvOkW with push1 := Except.error "Everything up-to-date".toList }

/-- The same environment with an unrelated push failure. -/
def cprEnvFailW : CPREnv :=
  { cprEnvOkW with push1 := Except.error "network unreachable".toList }

/-- A `SelectList` configuration over `Nat` items whose fuzzy search
returns no results. -/
def slCfgW : SLConfig Nat :=
  { items := [1], hasBack := true, searchable := true, fuse := fun _ => [] }

/-- A `SelectList` state whose filtered list is empty. -/
def slEmptyW : SLState Nat := { idx := 0, query := ['x'], filtered := [] }

/-- The keypress of the printable character `a`. -/
def charAEvt : KeyEvt :=
  { ret := false, up := false, down := false, escape := false, backspace := false,
    del := false, ctrl := false, meta := false, inp := ['a'] }


/-! ## C2, C9, C3: view transition theorems (proof section) -/

theorem transitionAttempt_mem (env : JiraTransEnv) (tid tname : List Char) :
    SWEffect.transitionAttempt tid tname ∈ transitionIssue env tid tname := by
  unfold transitionIssue
  cases env.getTransitions with
  | error e => simp
  | ok ts =>
    cases hf : List.find? (fun t => lowerStr t.name == lowerStr tname) ts with
    | none => simp [hf]
    | some t =>
      cases hp : env.postTransition with
      | ok u => simp [hf, hp]
      | error e => simp [hf, hp]

/-- C2: starting work on ticket PROJ-7 ("Add login page") with configured
base branch "main", confirming "create and checkout": the creating step
creates branch `PROJ-7/add-login-page` from `main`, checks it out, and
best-effort attempts the "In Progress" transition of PROJ-7; for every
outcome of the transition call (`tg`/`tp` universally quantified) the step
ends at `done` — a transition failure never turns it into `error`. -/
theorem start_work_create_branch_spec
    (tg : Except (List Char) (List JiraTransition)) (tp : Except (List Char) Unit)
    (wsName token : List Char) (ws : JiraWorkspace) (tickets : List JiraIssue)
    (cfg : JhCliConfig) (status issueType : List Char)
    (descr asg spr : Option (List Char)) (res : SWState × List SWEffect)
    (hbase : cfg.defaults.baseBranch = "main".toList)
    (hres : res = handleCreateBranch
        { branchExists := false, loadResult := Except.ok cfg,
          createBranch := Except.ok (), checkoutBranch := Except.ok (),
          token := some token, trans := ⟨tg, tp⟩, refresh := Except.ok () }
        (some wsName) (some ws) true
        (handleTicketSelect (fun l => l)
          { step := SWStep.selectTicket, tickets := tickets, selectedTicket := none,
            branchName := [], error := [], confirmIndex := 0 }
          { key := "PROJ-7".toList, summary := "Add login page".toList,
            status := status, issueType := issueType, description := descr,
            assignee := asg, sprint := spr })) :
    res.1.step = SWStep.done ∧
    res.1.branchName = "PROJ-7/add-login-page".toList ∧
    SWEffect.createdBranch "PROJ-7/add-login-page".toList "main".toList ∈ res.2 ∧
    SWEffect.checkedOut "PROJ-7/add-login-page".toList ∈ res.2 ∧
    SWEffect.transitionAttempt "PROJ-7".toList "In Progress".toList ∈ res.2 := by
  subst hres
  have hbn : generateBranchName (fun l => l) "PROJ-7".toList "Add login page".toList 50 =
      "PROJ-7/add-login-page".toList := by decide
  have hmem := transitionAttempt_mem ⟨tg, tp⟩ "PROJ-7".toList "In Progress".toList
  unfold handleTicketSelect handleCreateBranch swAfterMutations
  simp [hbase]
  refine ⟨by decide, Or.inl (by decide), Or.inl (by decide), ?_⟩
  exact transitionAttempt_mem ⟨tg, tp⟩ _ _

/-- Witness for C2 at a concrete environment. -/
theorem start_work_create_branch_spec_witness :
    (handleCreateBranch swEnvW (some "acme".toList) (some wsW) true
        (handleTicketSelect (fun l => l) swStW tktPROJ7)).1.step = SWStep.done :=
  (start_work_create_branch_spec (Except.ok []) (Except.ok ()) "acme".toList
    "tok".toList wsW [] cfgMainW "To Do".toList "Task".toList none none none _
    (by decide) rfl).1

/-- C9: in the create-ticket-from-branch view, when `createIssue`
succeeds and the subsequent `renameBranch` fails, the failure is
swallowed: the view still reaches the `done` step (never `error`) and
reports the original, un-renamed branch name. -/
theorem ctfb_rename_failure_swallowed
    (nfd : List Char → List Char) (cfg : JhCliConfig) (tkt : JiraIssue)
    (msg b : List Char) (ws : JiraWorkspace) (u : JiraUser) (st : CTFBState)
    (res : CTFBState × List CTFBEffect)
    (hclient : st.hasClient = true)
    (huser : st.currentUser = some u)
    (hres : res = ctfbHandleCreate nfd
        { createIssue := Except.ok tkt, loadResult := Except.ok cfg,
          renameBranch := Except.error msg, refresh := Except.ok () }
        (some b) (some ws) st) :
    res.1.step = CTFBStep.done ∧
    res.1.createdBranchName = b ∧
    res.1.createdTicketKey = tkt.key := by
  subst hres
  unfold ctfbHandleCreate
  simp [hclient, huser]

/-- Witness for C9 at a concrete environment. -/
theorem ctfb_rename_failure_swallowed_witness :
    (ctfbHandleCreate (fun l => l) ctfbEnvW (some "feature/oauth".toList) (some wsW)
        ctfbStW).1.step = CTFBStep.done ∧
    (ctfbHandleCreate (fun l => l) ctfbEnvW (some "feature/oauth".toList) (some wsW)
        ctfbStW).1.createdBranchName = "feature/oauth".toList :=
  ⟨(ctfb_rename_failure_swallowed (fun l => l) cfgMainW tktPROJ9 "rename failed".toList
      "feature/oauth".toList wsW userW ctfbStW _ rfl rfl rfl).1,
   (ctfb_rename_failure_swallowed (fun l => l) cfgMainW tktPROJ9 "rename failed".toList
      "feature/oauth".toList wsW userW ctfbStW _ rfl rfl rfl).2.1⟩

/-- Counterexample for C3: the claim says the push-needed step is
inserted exactly when the local branch lacks a remote counterpart, but
`loadData` also inserts it when the branch has an upstream (`...` marker
present in `git status -sb`) and is merely ahead of it. -/
theorem cpr_pushneeded_counterexample :
    (prLoadData
        { token := some "tok".toList,
          getIssue := Except.ok (some
            { key := "PROJ-9".toList, summary := "Oauth refresh".toList,
              status := "To Do".toList, issueType := "Task".toList,
              description := none, assignee := none, sprint := none }),
          loadResult := Except.ok
            { version := 1,
              defaults := { branchFormat := "{ticketId}/{slug}".toList,
                            slugMaxLength := 50, defaultIssueType := "Task".toList,
                            baseBranch := "main".toList },
              workspaces := [], mappings := [] },
          gitStatus := Except.ok "## feat...origin/feat [ahead 1]".toList,
          push1 := Except.ok (), push2 := Except.ok (),
          ghCreate := Except.ok [] }
        (some { domain := "acme.atlassian.net".toList, email := "e@acme.com".toList,
                defaultProject := "PROJ".toList })
        (some "acme".toList) (some "PROJ-9".toList)
        { step := CPRStep.loading, error := [], ticket := none, jiraUrl := [],
          needsPush := false, baseBranch := "main".toList, title := [], body := [],
          pushIndex := 0, confirmIndex := 0, prUrl := [] }).step = CPRStep.pushNeeded ∧
    containsSub "...".toList "## feat...origin/feat [ahead 1]".toList = true := by
  decide

theorem prCatch_step (st : CPRState) (m : List Char) :
    (prCatch st m).step = CPRStep.error := by
  unfold prCatch
  split <;> rfl

theorem prHandleCreate_ok (env : CPREnv) (st : CPRState) (t : JiraIssue)
    (ht : st.ticket = some t) (hp : env.push1 = Except.ok ()) :
    prHandleCreate env st = prAfterPush env { st with step := CPRStep.creating }
      [CPREffect.push true] := by
  unfold prHandleCreate
  rw [ht, hp]

theorem prHandleCreate_err (env : CPREnv) (st : CPRState) (t : JiraIssue) (m : List Char)
    (ht : st.ticket = some t) (hp : env.push1 = Except.error m) :
    prHandleCreate env st =
      (if containsSub "already exists".toList m || containsSub "set up to track".toList m then
         match env.push2 with
         | Except.ok _ => prAfterPush env { st with step := CPRStep.creating }
             [CPREffect.push true, CPREffect.push false]
         | Except.error m2 => (prCatch { st with step := CPRStep.creating } m2,
             [CPREffect.push true, CPREffect.push false])
       else if !(containsSub "Everything up-to-date".toList m) then
         (prCatch { st with step := CPRStep.creating } ("Failed to push branch: ".toList ++ m),
          [CPREffect.push true])
       else prAfterPush env { st with step := CPRStep.creating } [CPREffect.push true]) := by
  unfold prHandleCreate
  rw [ht, hp]

/-- C3 (amended): confirming creation always attempts a push of the
current branch (with the upstream flag) before the PR-creation command; a
push failure whose message contains "already exists" or "set up to track"
is retried without the upstream flag; one containing "Everything
up-to-date" is treated as success and PR creation still proceeds; any
other push failure moves to the `error` step without ever invoking the
PR-creation command; and the push-needed step is inserted before the
title/body steps exactly when the `git status -sb` query fails, shows no
`...` upstream marker, or reports the branch ahead of its upstream. -/
theorem create_pr_push_amended :
    (∀ (env : CPREnv) (st : CPRState) (t : JiraIssue), st.ticket = some t →
       (prHandleCreate env st).2.head? = some (CPREffect.push true)) ∧
    (∀ (env : CPREnv) (st : CPRState) (t : JiraIssue) (m : List Char),
       st.ticket = some t → env.push1 = Except.error m →
       (containsSub "already exists".toList m || containsSub "set up to track".toList m) = true →
       CPREffect.push false ∈ (prHandleCreate env st).2) ∧
    (∀ (env : CPREnv) (st : CPRState) (t : JiraIssue) (m : List Char),
       st.ticket = some t → env.push1 = Except.error m →
       containsSub "already exists".toList m = false →
       containsSub "set up to track".toList m = false →
       containsSub "Everything up-to-date".toList m = true →
       CPREffect.ghPrCreate st.baseBranch (escapeQuotes st.title) (escapeBody st.body) ∈
         (prHandleCreate env st).2) ∧
    (∀ (env : CPREnv) (st : CPRState) (t : JiraIssue) (m : List Char),
       st.ticket = some t → env.push1 = Except.error m →
       containsSub "already exists".toList m = false →
       containsSub "set up to track".toList m = false →
       containsSub "Everything up-to-date".toList m = false →
       (prHandleCreate env st).1.step = CPRStep.error ∧
       ∀ b ti bo, CPREffect.ghPrCreate b ti bo ∉ (prHandleCreate env st).2) ∧
    (∀ (e : List Char), branchNeedsPushDecision (Except.error e) = true) ∧
    (∀ (out : List Char), branchNeedsPushDecision (Except.ok out) = true ↔
       (containsSub "...".toList out = false ∨ containsSub "ahead".toList out = true)) ∧
    (∀ (env : CPREnv) (ws : JiraWorkspace) (wn lt : List Char) (st : CPRState)
       (tok : List Char) (t : JiraIssue) (cfg : JhCliConfig),
       env.token = some tok → env.getIssue = Except.ok (some t) →
       env.loadResult = Except.ok cfg →
       ((prLoadData env (some ws) (some wn) (some lt) st).step = CPRStep.pushNeeded ↔
        branchNeedsPushDecision env.gitStatus = true)) := by
  refine ⟨?_, ?_, ?_, ?_, ?_, ?_, ?_⟩
  · intro env st t ht
    cases hp : env.push1 with
    | ok u =>
      rw [prHandleCreate_ok env st t ht hp]
      cases hg : env.ghCreate <;> simp [prAfterPush, hg]
    | error m =>
      rw [prHandleCreate_err env st t m ht hp]
      by_cases h1 : (containsSub "already exists".toList m ||
          containsSub "set up to track".toList m) = true
      · rw [h1]
        simp only [if_true]
        cases env.push2 with
        | ok u => cases hg : env.ghCreate <;> simp [prAfterPush, hg]
        | error m2 => simp
      · simp only [Bool.not_eq_true] at h1
        rw [h1]
        simp only [Bool.false_eq_true, if_false]
        by_cases h2 : containsSub "Everything up-to-date".toList m = true
        · rw [h2]
          simp only [Bool.not_true, Bool.false_eq_true, if_false]
          cases hg : env.ghCreate <;> simp [prAfterPush, hg]
        · simp only [Bool.not_eq_true] at h2
          rw [h2]
          simp
  · intro env st t m ht hp h1
    rw [prHandleCreate_err env st t m ht hp, h1]
    simp only [if_true]
    cases env.push2 with
    | ok u => cases hg : env.ghCreate <;> simp [prAfterPush, hg]
    | error m2 => simp
  · intro env st t m ht hp h1 h2 h3
    rw [prHandleCreate_err env st t m ht hp, h1, h2, h3]
    simp only [Bool.or_self, Bool.false_eq_true, if_false, Bool.not_true]
    cases hg : env.ghCreate <;> simp [prAfterPush, hg]
  · intro env st t m ht hp h1 h2 h3
    rw [prHandleCreate_err env st t m ht hp, h1, h2, h3]
    simp [prCatch_step]
  · intro e
    rfl
  · intro out
    have hred : branchNeedsPushDecision (Except.ok out) =
        (!containsSub "...".toList out || containsSub "ahead".toList out) := rfl
    rw [hred]
    cases hc : containsSub "...".toList out <;> cases ha : containsSub "ahead".toList out <;>
      decide
  · intro env ws wn lt st tok t cfg htok hiss hload
    unfold prLoadData
    simp only [htok, hiss, hload]
    cases hd : branchNeedsPushDecision env.gitStatus <;> simp [hd]

/-- Witness for the amended C3 at concrete environments. -/
theorem create_pr_push_amended_witness :
    (prHandleCreate cprEnvOkW cprStW).2.head? = some (CPREffect.push true) ∧
    CPREffect.push false ∈ (prHandleCreate cprEnvRetryW cprStW).2 ∧
    CPREffect.ghPrCreate cprStW.baseBranch (escapeQuotes cprStW.title)
      (escapeBody cprStW.body) ∈ (prHandleCreate cprEnvUpToDateW cprStW).2 ∧
    (prHandleCreate cprEnvFailW cprStW).1.step = CPRStep.error ∧
    CPREffect.ghPrCreate [] [] [] ∉ (prHandleCreate cprEnvFailW cprStW).2 ∧
    branchNeedsPushDecision (Except.error "boom".toList) = true ∧
    ((prLoadData cprEnvOkW (some wsW) (some "acme".toList) (some "PROJ-9".toList)
        cprLoadStW).step = CPRStep.pushNeeded ↔
      branchNeedsPushDecision cprEnvOkW.gitStatus = true) :=
  ⟨create_pr_push_amended.1 cprEnvOkW cprStW tktPROJ9 rfl,
   create_pr_push_amended.2.1 cprEnvRetryW cprStW tktPROJ9 _ rfl rfl (by decide),
   create_pr_push_amended.2.2.1 cprEnvUpToDateW cprStW tktPROJ9 _ rfl rfl
     (by decide) (by decide) (by decide),
   (create_pr_push_amended.2.2.2.1 cprEnvFailW cprStW tktPROJ9 _ rfl rfl
     (by decide) (by decide) (by decide)).1,
   (create_pr_push_amended.2.2.2.1 cprEnvFailW cprStW tktPROJ9 _ rfl rfl
     (by decide) (by decide) (by decide)).2 [] [] [],
   create_pr_push_amended.2.2.2.2.1 "boom".toList,
   create_pr_push_amended.2.2.2.2.2.2 cprEnvOkW wsW "acme".toList "PROJ-9".toList
     cprLoadStW "tok".toList tktPROJ9 cfgMainW rfl rfl rfl⟩



/-! ## Helper lemmas -/

theorem mem_collapseRunsAux {p : Char → Bool} {rep : Char} {b : Bool} {l : List Char}
    {x : Char} (hx : x ∈ collapseRunsAux p rep b l) : x = rep ∨ x ∈ l := by
  induction l generalizing b with
  | nil => simp [collapseRunsAux] at hx
  | cons c rest ih =>
    simp only [collapseRunsAux] at hx
    by_cases hc : p c = true
    · simp only [hc, if_true] at hx
      cases b with
      | true =>
        rcases ih hx with h | h
        · exact Or.inl h
        · exact Or.inr (List.mem_cons_of_mem _ h)
      | false =>
        rcases List.mem_cons.mp hx with h | h
        · exact Or.inl h
        · rcases ih h with h' | h'
          · exact Or.inl h'
          · exact Or.inr (List.mem_cons_of_mem _ h')
    · simp only [Bool.not_eq_true] at hc
      simp only [hc, Bool.false_eq_true, if_false] at hx
      rcases List.mem_cons.mp hx with h | h
      · exact Or.inr (h ▸ List.mem_cons_self c rest)
      · rcases ih h with h' | h'
        · exact Or.inl h'
        · exact Or.inr (List.mem_cons_of_mem _ h')

theorem mem_collapseRuns {p : Char → Bool} {rep : Char} {l : List Char} {x : Char}
    (hx : x ∈ collapseRuns p rep l) : x = rep ∨ x ∈ l :=
  mem_collapseRunsAux hx

theorem head_dropWhile_not {p : Char → Bool} {l : List Char} {a : Char}
    (h : (l.dropWhile p).head? = some a) : p a = false := by
  induction l with
  | nil => simp [List.dropWhile] at h
  | cons c rest ih =>
    simp only [List.dropWhile] at h
    by_cases hc : p c = true
    · simp only [hc, if_true] at h
      exact ih h
    · simp only [Bool.not_eq_true] at hc
      simp only [hc] at h
      simp only [List.head?] at h
      injection h with h
      exact h ▸ hc

theorem head_of_pref {l m : List Char} {a : Char} (h : l <+: m)
    (hl : l.head? = some a) : m.head? = some a := by
  obtain ⟨t, rfl⟩ := h
  cases l with
  | nil => simp [List.head?] at hl
  | cons c rest => simpa using hl

theorem mem_rdropWhile_mem {p : Char → Bool} {l : List Char} {x : Char}
    (hx : x ∈ l.rdropWhile p) : x ∈ l := by
  have h : l.rdropWhile p <+: l := List.rdropWhile_prefix p l
  exact h.sublist.mem hx

theorem length_rdropWhile_le (p : Char → Bool) (l : List Char) :
    (l.rdropWhile p).length ≤ l.length := by
  have h : l.rdropWhile p <+: l := List.rdropWhile_prefix p l
  exact h.sublist.length_le

theorem getLast_rdropWhile_not {p : Char → Bool} {l : List Char} {a : Char}
    (h : (l.rdropWhile p).getLast? = some a) : p a = false := by
  rw [List.rdropWhile] at h
  rw [List.getLast?_reverse] at h
  exact head_dropWhile_not h

/-! ## C6: slugify output properties -/

/-- C6: for every input string and requested maximum length, `slugify`
yields a string whose characters all lie in `[a-z0-9-]`, that neither
starts nor ends with `-`, and whose length is at most the requested
maximum; in particular `slugify("Fix Login Bug!!", 50)` is
`"fix-login-bug"`. -/
theorem slugify_spec :
    (∀ (nfd : List Char → List Char) (text : List Char) (n : Nat),
        (∀ c ∈ slugify nfd text n, isSlugChar c = true) ∧
        (slugify nfd text n).head? ≠ some '-' ∧
        (slugify nfd text n).getLast? ≠ some '-' ∧
        (slugify nfd text n).length ≤ n) ∧
    slugify (fun l => l) "Fix Login Bug!!".toList 50 = "fix-login-bug".toList := by
  constructor
  · intro nfd text n
    simp only [slugify]
    set s3 := ((nfd (text.map Char.toLower)).filter (fun c => !(isCombiningMark c))) with hs3
    set s4 := collapseRuns (fun c => isJsSpace c || c = '_') '-' s3 with hs4
    set s5 := s4.filter isSlugChar with hs5
    set s6 := collapseRuns (fun c => c = '-') '-' s5 with hs6
    set s7 := (s6.dropWhile (fun c => c = '-')).rdropWhile (fun c => c = '-') with hs7
    set s8 := s7.take n with hs8
    refine ⟨?_, ?_, ?_, ?_⟩
    · intro c hc
      have h8 : c ∈ s8 := mem_rdropWhile_mem hc
      have h7 : c ∈ s7 := (List.take_prefix n s7).sublist.mem h8
      have h6d : c ∈ s6.dropWhile (fun c => c = '-') := mem_rdropWhile_mem h7
      have h6 : c ∈ s6 := (List.dropWhile_sublist (fun c => c = '-')).mem h6d
      rcases mem_collapseRuns h6 with h | h
      · subst h; decide
      · exact List.of_mem_filter h
    · intro hhead
      have h1 : s8.rdropWhile (fun c => c = '-') <+: s8 :=
        List.rdropWhile_prefix _ _
      have h2 : s8.head? = some '-' := head_of_pref h1 hhead
      have h3 : s8 <+: s7 := List.take_prefix n s7
      have h4 : s7.head? = some '-' := head_of_pref h3 h2
      have h5' : s7 <+: s6.dropWhile (fun c => c = '-') := List.rdropWhile_prefix _ _
      have h6' : (s6.dropWhile (fun c => c = '-')).head? = some '-' := head_of_pref h5' h4
      have := head_dropWhile_not h6'
      simp at this
    · intro hlast
      have := getLast_rdropWhile_not hlast
      simp at this
    · calc (s8.rdropWhile (fun c => c = '-')).length ≤ s8.length :=
            length_rdropWhile_le _ _
        _ ≤ n := by simp [hs8]
  · decide

/-- Witness for C6 at the concrete example. -/
theorem slugify_spec_witness :
    isSlugChar 'f' = true ∧
    slugify (fun l => l) "Fix Login Bug!!".toList 50 = "fix-login-bug".toList :=
  ⟨(slugify_spec.1 (fun l => l) "Fix Login Bug!!".toList 50).1 'f' (by decide),
   slugify_spec.2⟩

/-! ## C8: getContext outside a git repository -/

/-- C8: whenever the version-control wrapper reports `isGitRepo = false`,
`getContext` returns the context whose every other field is at its
null/zero default, and it makes no configuration-store or network
collaborator call (its call list is empty). -/
theorem getContext_no_repo (cfg : ConfigEnv) (git : GitEnv)
    (h : git.isGitRepo = false) :
    getContext cfg git =
      (Except.ok { isGitRepo := false, currentBranch := none, repoIdentifier := none,
                   workspaceName := none, workspace := none, linkedTicketId := none,
                   commitsAhead := 0 }, ([] : List CollabCall)) := by
  simp [getContext, h, defaultAppContext]

/-- Witness for C8 at a concrete environment. -/
theorem getContext_no_repo_witness :
    getContext ⟨Except.error "boom".toList, fun _ => none⟩
        ⟨false, none, none, fun _ => 0⟩ =
      (Except.ok { isGitRepo := false, currentBranch := none, repoIdentifier := none,
                   workspaceName := none, workspace := none, linkedTicketId := none,
                   commitsAhead := 0 }, ([] : List CollabCall)) :=
  getContext_no_repo _ _ rfl

/-! ## C1: does getContext ever raise?

The claim is falsified: the `load()` inside `resolveWorkspace` is not
guarded, so in a git repository whose remote resolves to a repo
identifier, a missing or invalid configuration file makes `getContext`
reject instead of degrading the workspace fields. -/

/-- Counterexample for C1: in a git repository on branch `main` with repo
identifier `acme/app`, a failing configuration load (`ENOENT`) propagates
out of `getContext` — the call raises instead of degrading the affected
field to its default. -/
theorem getContext_raises_counterexample :
    (getContext ⟨Except.error "ENOENT: no such file or directory".toList, fun _ => none⟩
        ⟨true, some "main".toList, some "acme/app".toList, fun _ => 0⟩).1 =
      Except.error "ENOENT: no such file or directory".toList := rfl

/-- C1 (amended): `getContext` returns an `AppContext` and never raises
provided that, whenever workspace resolution is attempted (a git repo
whose repo identifier is non-null), the configuration load succeeds.  Git
collaborator failures (not a repo, no branch, no remote) and a
configuration-load failure during the commits-ahead computation still
only degrade the affected fields to their null/zero defaults. -/
theorem finishContext_ok (cfg : ConfigEnv) (git : GitEnv)
    (branch rid wsName : Option (List Char)) (ws : Option JiraWorkspace)
    (calls : List CollabCall) :
    ∃ ctx, (finishContext cfg git branch rid wsName ws calls).1 = Except.ok ctx := by
  unfold finishContext
  cases cfg.loadResult <;> exact ⟨_, rfl⟩

theorem resolveWorkspace_ok_of_load {cfg : ConfigEnv} {c : JhCliConfig}
    (hc : cfg.loadResult = Except.ok c) (r : List Char) :
    ∃ o, resolveWorkspace cfg r = Except.ok o := by
  unfold resolveWorkspace
  rw [hc]
  cases hlk : List.lookup r c.mappings with
  | some ws => exact ⟨some ws, by simp [hlk]⟩
  | none =>
    exact ⟨List.lookup (r.takeWhile (fun x => x ≠ '/') ++ "/*".toList) c.mappings,
      by simp [hlk]⟩

theorem getWorkspaceConfig_ok_of_load {cfg : ConfigEnv} {c : JhCliConfig}
    (hc : cfg.loadResult = Except.ok c) (name : List Char) :
    ∃ w, getWorkspaceConfig cfg name = Except.ok w := by
  unfold getWorkspaceConfig
  rw [hc]
  exact ⟨_, rfl⟩

theorem getContext_total_amended (cfg : ConfigEnv) (git : GitEnv)
    (h : git.isGitRepo = false ∨ git.repoIdentifier = none ∨
         ∃ c, cfg.loadResult = Except.ok c) :
    ∃ ctx, (getContext cfg git).1 = Except.ok ctx := by
  by_cases hg : git.isGitRepo = true
  · rcases h with h | h | ⟨c, hc⟩
    · rw [h] at hg; exact absurd hg (by simp)
    · have heq : (getContext cfg git).1 =
          (finishContext cfg git git.currentBranch none none none []).1 := by
        simp [getContext, hg, h]
      rw [heq]
      exact finishContext_ok cfg git _ _ _ _ _
    · cases hrid : git.repoIdentifier with
      | none =>
        have heq : (getContext cfg git).1 =
            (finishContext cfg git git.currentBranch none none none []).1 := by
          simp [getContext, hg, hrid]
        rw [heq]
        exact finishContext_ok cfg git _ _ _ _ _
      | some r =>
        obtain ⟨o, ho⟩ := resolveWorkspace_ok_of_load hc r
        cases o with
        | none =>
          have heq : (getContext cfg git).1 =
              (finishContext cfg git git.currentBranch (some r) none none
                [.configLoad]).1 := by
            simp [getContext, hg, hrid, ho]
          rw [heq]
          exact finishContext_ok cfg git _ _ _ _ _
        | some name =>
          obtain ⟨w, hw⟩ := getWorkspaceConfig_ok_of_load hc name
          have heq : (getContext cfg git).1 =
              (finishContext cfg git git.currentBranch (some r) (some name) w
                [.configLoad, .configLoad]).1 := by
            simp [getContext, hg, hrid, ho, hw]
          rw [heq]
          exact finishContext_ok cfg git _ _ _ _ _
  · simp only [Bool.not_eq_true] at hg
    exact ⟨defaultAppContext, by simp [getContext, hg]⟩

/-- Witness for the amended C1 at a concrete environment. -/
theorem getContext_total_amended_witness :
    ∃ ctx,
      (getContext
          ⟨Except.ok { version := 1,
                       defaults := { branchFormat := "{ticketId}/{slug}".toList,
                                     slugMaxLength := 50,
                                     defaultIssueType := "Task".toList,
                                     baseBranch := "main".toList },
                       workspaces := [], mappings := [] },
            fun _ => none⟩
          ⟨true, some "main".toList, some "acme/app".toList, fun _ => 0⟩).1 =
        Except.ok ctx :=
  getContext_total_amended _ _ (Or.inr (Or.inr ⟨_, rfl⟩))

/-! ## C4: confirm-step action placement and the behaviour of the last
action

The claim is falsified by the create-ticket-from-branch view: its confirm
step's last action ("Cancel") calls `navigate('main')`, not a return to
the immediately preceding interactive step. -/

/-- Counterexample for C4: in the create-ticket-from-branch confirm step,
pressing enter on the last action (index 1, labelled "Cancel") navigates
to the router's main view instead of returning to the preceding
interactive step (`editDueDate`). -/
theorem ctfb_confirm_last_navigates_main :
    ctfbConfirmEnter (ctfbConfirmActions.length - 1) = CTFBConfirmOutcome.navigateMain ∧
    ctfbConfirmActions.getLast? = some "Cancel".toList := by
  constructor
  · rfl
  · rfl

/-- C4 (amended): in every embedded confirm step the highest-commitment
affirmative action is at cursor position 0 and the non-committing action
is last; in the start-work and new-ticket views enter on the last action
("Back") returns to the immediately preceding interactive step, while in
the create-ticket-from-branch view enter on the last action ("Cancel")
navigates to the router's main view. -/
theorem confirm_steps_amended :
    startWorkConfirmEnter 0 = SWConfirmOutcome.create true ∧
    startWorkConfirmEnter 1 = SWConfirmOutcome.create false ∧
    startWorkConfirmEnter 2 = SWConfirmOutcome.goto SWStep.selectTicket ∧
    startWorkConfirmActions.getLast? = some "Back".toList ∧
    newTicketConfirmEnter 0 = NTConfirmOutcome.create true ∧
    newTicketConfirmEnter 1 = NTConfirmOutcome.create false ∧
    newTicketConfirmEnter 2 = NTConfirmOutcome.goto NTStep.enterDescription ∧
    newTicketConfirmActions.getLast? = some "Back".toList ∧
    ctfbConfirmEnter 0 = CTFBConfirmOutcome.create ∧
    ctfbConfirmEnter 1 = CTFBConfirmOutcome.navigateMain ∧
    ctfbConfirmActions.getLast? = some "Cancel".toList := by
  refine ⟨rfl, rfl, rfl, rfl, rfl, rfl, rfl, rfl, rfl, rfl, rfl⟩

/-! ## C7: ticket sort order -/

theorem lexCmp_swap : ∀ (a b : List Char), lexCmp a b = -lexCmp b a
  | [], [] => rfl
  | [], _ :: _ => rfl
  | _ :: _, [] => rfl
  | a :: as, b :: bs => by
    simp only [lexCmp]
    rcases lt_trichotomy a b with h | h | h
    · simp [h, h.asymm]
    · subst h
      simp only [lt_irrefl, if_false]
      exact lexCmp_swap as bs
    · simp [h, h.asymm]

theorem lexCmp_eq_zero_iff : ∀ (a b : List Char), lexCmp a b = 0 ↔ a = b
  | [], [] => by simp [lexCmp]
  | [], _ :: _ => by simp [lexCmp]
  | _ :: _, [] => by simp [lexCmp]
  | a :: as, b :: bs => by
    simp only [lexCmp]
    rcases lt_trichotomy a b with h | h | h
    · simp only [h, if_true, List.cons.injEq]
      constructor
      · intro hc; omega
      · rintro ⟨h1, h2⟩; exact absurd (h1 ▸ h) (lt_irrefl b)
    · subst h
      simp only [lt_irrefl, if_false, List.cons.injEq, true_and]
      exact lexCmp_eq_zero_iff as bs
    · simp only [h, h.asymm, if_true, if_false, List.cons.injEq]
      constructor
      · intro hc; omega
      · rintro ⟨h1, h2⟩; exact absurd (h1 ▸ h) (lt_irrefl b)

theorem lexCmp_neg_inv {a b : List Char} {x y : Char} (h : lexCmp (x :: a) (y :: b) = -1) :
    x < y ∨ (x = y ∧ lexCmp a b = -1) := by
  simp only [lexCmp] at h
  rcases lt_trichotomy x y with hx | hx | hx
  · exact Or.inl hx
  · subst hx
    simp only [lt_irrefl, if_false] at h
    exact Or.inr ⟨rfl, h⟩
  · simp only [hx, hx.asymm, if_true, if_false] at h
    omega

theorem lexCmp_neg_trans : ∀ (a b c : List Char),
    lexCmp a b = -1 → lexCmp b c = -1 → lexCmp a c = -1
  | [], [], _ => by intro h1 _; simp [lexCmp] at h1
  | [], _ :: _, [] => by intro _ h2; simp [lexCmp] at h2
  | [], _ :: _, _ :: _ => by intro _ _; simp [lexCmp]
  | _ :: _, [], _ => by intro h1 _; simp [lexCmp] at h1
  | _ :: _, _ :: _, [] => by intro _ h2; simp [lexCmp] at h2
  | x :: xs, y :: ys, z :: zs => by
    intro h1 h2
    rcases lexCmp_neg_inv h1 with hxy | ⟨hxy, hrec1⟩
    · rcases lexCmp_neg_inv h2 with hyz | ⟨hyz, hrec2⟩
      · simp [lexCmp, lt_trans hxy hyz]
      · subst hyz; simp [lexCmp, hxy]
    · subst hxy
      rcases lexCmp_neg_inv h2 with hyz | ⟨hyz, hrec2⟩
      · simp [lexCmp, hyz]
      · subst hyz
        simp only [lexCmp, lt_irrefl, if_false]
        exact lexCmp_neg_trans xs ys zs hrec1 hrec2

theorem lexLtB_iff : ∀ (a b : List Char), lexLtB a b = true ↔ lexCmp a b = -1
  | [], [] => by simp [lexLtB, lexCmp]
  | [], _ :: _ => by simp [lexLtB, lexCmp]
  | _ :: _, [] => by simp [lexLtB, lexCmp]
  | a :: as, b :: bs => by
    simp only [lexLtB, lexCmp, Bool.or_eq_true, Bool.and_eq_true, decide_eq_true_eq]
    rcases lt_trichotomy a b with h | h | h
    · simp [h]
    · subst h
      simp only [lt_irrefl, if_false, false_or, true_and]
      exact lexLtB_iff as bs
    · simp only [h, h.asymm, if_true, if_false, false_or]
      constructor
      · rintro ⟨hc, _⟩
        exact absurd (hc ▸ h) (lt_irrefl b)
      · intro hc
        exfalso
        omega

theorem lexCmp_cases : ∀ (a b : List Char),
    lexCmp a b = -1 ∨ lexCmp a b = 0 ∨ lexCmp a b = 1
  | [], [] => Or.inr (Or.inl rfl)
  | [], _ :: _ => Or.inl rfl
  | _ :: _, [] => Or.inr (Or.inr rfl)
  | a :: as, b :: bs => by
    simp only [lexCmp]
    rcases lt_trichotomy a b with h | h | h
    · simp [h]
    · subst h
      simp only [lt_irrefl, if_false]
      exact lexCmp_cases as bs
    · simp [h, h.asymm]

theorem ticketCmp_eq_neg {α : Type} (key : α → List Char) (a b : α)
    (h : lexCmp (parseTicketKey (key a)).1 (parseTicketKey (key b)).1 = -1) :
    ticketCmp key a b = -1 := by
  show (if lexCmp (parseTicketKey (key a)).1 (parseTicketKey (key b)).1 ≠ 0
        then lexCmp (parseTicketKey (key a)).1 (parseTicketKey (key b)).1
        else ((parseTicketKey (key b)).2 : Int) - ((parseTicketKey (key a)).2 : Int)) = -1
  rw [h]
  norm_num

theorem ticketCmp_eq_zero {α : Type} (key : α → List Char) (a b : α)
    (h : lexCmp (parseTicketKey (key a)).1 (parseTicketKey (key b)).1 = 0) :
    ticketCmp key a b =
      ((parseTicketKey (key b)).2 : Int) - ((parseTicketKey (key a)).2 : Int) := by
  show (if lexCmp (parseTicketKey (key a)).1 (parseTicketKey (key b)).1 ≠ 0
        then lexCmp (parseTicketKey (key a)).1 (parseTicketKey (key b)).1
        else ((parseTicketKey (key b)).2 : Int) - ((parseTicketKey (key a)).2 : Int)) =
      ((parseTicketKey (key b)).2 : Int) - ((parseTicketKey (key a)).2 : Int)
  rw [h]
  norm_num

theorem ticketCmp_eq_one {α : Type} (key : α → List Char) (a b : α)
    (h : lexCmp (parseTicketKey (key a)).1 (parseTicketKey (key b)).1 = 1) :
    ticketCmp key a b = 1 := by
  show (if lexCmp (parseTicketKey (key a)).1 (parseTicketKey (key b)).1 ≠ 0
        then lexCmp (parseTicketKey (key a)).1 (parseTicketKey (key b)).1
        else ((parseTicketKey (key b)).2 : Int) - ((parseTicketKey (key a)).2 : Int)) = 1
  rw [h]
  norm_num

theorem ticketLE_iff {α : Type} (key : α → List Char) (a b : α) :
    ticketLE key a b = true ↔
      SpecTicketOrder (parseTicketKey (key a)) (parseTicketKey (key b)) := by
  unfold ticketLE SpecTicketOrder
  simp only [decide_eq_true_eq]
  rcases lexCmp_cases (parseTicketKey (key a)).1 (parseTicketKey (key b)).1 with h | h | h
  · rw [ticketCmp_eq_neg key a b h]
    constructor
    · intro _
      left
      rw [lexLtB_iff]
      exact h
    · intro _
      decide
  · rw [ticketCmp_eq_zero key a b h]
    have he : (parseTicketKey (key a)).1 = (parseTicketKey (key b)).1 :=
      (lexCmp_eq_zero_iff _ _).mp h
    constructor
    · intro hc
      exact Or.inr ⟨he, by omega⟩
    · rintro (hc | ⟨_, hc⟩)
      · rw [lexLtB_iff] at hc
        exact absurd (hc.symm.trans h) (by decide)
      · omega
  · rw [ticketCmp_eq_one key a b h]
    constructor
    · intro hc
      exact absurd hc (by decide)
    · rintro (hc | ⟨hc, _⟩)
      · rw [lexLtB_iff] at hc
        exact absurd (hc.symm.trans h) (by decide)
      · rw [← lexCmp_eq_zero_iff] at hc
        exact absurd (hc.symm.trans h) (by decide)

theorem ticketLE_total {α : Type} (key : α → List Char) (a b : α) :
    ticketLE key a b = true ∨ ticketLE key b a = true := by
  unfold ticketLE
  simp only [decide_eq_true_eq]
  rcases lexCmp_cases (parseTicketKey (key a)).1 (parseTicketKey (key b)).1 with h | h | h
  · left
    rw [ticketCmp_eq_neg key a b h]
    decide
  · have h' : lexCmp (parseTicketKey (key b)).1 (parseTicketKey (key a)).1 = 0 := by
      rw [lexCmp_swap, h]
      rfl
    by_cases hn : (parseTicketKey (key b)).2 ≤ (parseTicketKey (key a)).2
    · left
      rw [ticketCmp_eq_zero key a b h]
      omega
    · right
      rw [ticketCmp_eq_zero key b a h']
      omega
  · right
    have h' : lexCmp (parseTicketKey (key b)).1 (parseTicketKey (key a)).1 = -1 := by
      rw [lexCmp_swap, h]
    rw [ticketCmp_eq_neg key b a h']
    decide

theorem specTicketOrder_trans {pa pb pc : List Char × Nat}
    (h1 : SpecTicketOrder pa pb) (h2 : SpecTicketOrder pb pc) : SpecTicketOrder pa pc := by
  unfold SpecTicketOrder at h1 h2 ⊢
  rcases h1 with h1 | ⟨e1, n1⟩
  · rcases h2 with h2 | ⟨e2, n2⟩
    · left
      rw [lexLtB_iff] at h1 h2 ⊢
      exact lexCmp_neg_trans _ _ _ h1 h2
    · left
      exact e2 ▸ h1
  · rcases h2 with h2 | ⟨e2, n2⟩
    · left
      exact e1 ▸ h2
    · right
      exact ⟨e1.trans e2, le_trans n2 n1⟩

theorem ticketLE_trans {α : Type} (key : α → List Char) (a b c : α)
    (h1 : ticketLE key a b = true) (h2 : ticketLE key b c = true) :
    ticketLE key a c = true :=
  (ticketLE_iff key a c).mpr
    (specTicketOrder_trans ((ticketLE_iff key a b).mp h1) ((ticketLE_iff key b c).mp h2))

theorem insertSorted_perm {α : Type} (le : α → α → Bool) (x : α) :
    ∀ (l : List α), (insertSorted le x l).Perm (x :: l)
  | [] => List.Perm.refl _
  | y :: ys => by
    unfold insertSorted
    by_cases h : le x y = true
    · rw [if_pos h]
    · rw [if_neg h]
      exact ((insertSorted_perm le x ys).cons y).trans (List.Perm.swap x y ys)

theorem mem_insertSorted {α : Type} {le : α → α → Bool} {x z : α} {l : List α}
    (h : z ∈ insertSorted le x l) : z = x ∨ z ∈ l :=
  List.mem_cons.mp ((insertSorted_perm le x l).mem_iff.mp h)

theorem insertSorted_pairwise {α : Type} (le : α → α → Bool)
    (htot : ∀ a b, le a b = true ∨ le b a = true)
    (htrans : ∀ a b c, le a b = true → le b c = true → le a c = true)
    (x : α) : ∀ (l : List α), l.Pairwise (fun a b => le a b = true) →
      (insertSorted le x l).Pairwise (fun a b => le a b = true)
  | [], _ => by simp [insertSorted]
  | y :: ys, hp => by
    unfold insertSorted
    rcases List.pairwise_cons.mp hp with ⟨hy, hys⟩
    by_cases h : le x y = true
    · rw [if_pos h]
      refine List.pairwise_cons.mpr ⟨?_, hp⟩
      intro z hz
      rcases List.mem_cons.mp hz with rfl | hz'
      · exact h
      · exact htrans x y z h (hy z hz')
    · rw [if_neg h]
      have hyx : le y x = true := (htot x y).resolve_left h
      refine List.pairwise_cons.mpr
        ⟨?_, insertSorted_pairwise le htot htrans x ys hys⟩
      intro z hz
      rcases mem_insertSorted hz with rfl | hz'
      · exact hyx
      · exact hy z hz'

theorem sortByLE_perm {α : Type} (le : α → α → Bool) :
    ∀ (l : List α), (sortByLE le l).Perm l
  | [] => List.Perm.refl _
  | x :: xs => by
    unfold sortByLE
    exact (insertSorted_perm le x (sortByLE le xs)).trans ((sortByLE_perm le xs).cons x)

theorem sortByLE_pairwise {α : Type} (le : α → α → Bool)
    (htot : ∀ a b, le a b = true ∨ le b a = true)
    (htrans : ∀ a b c, le a b = true → le b c = true → le a c = true) :
    ∀ (l : List α), (sortByLE le l).Pairwise (fun a b => le a b = true)
  | [] => List.Pairwise.nil
  | x :: xs =>
    insertSorted_pairwise le htot htrans x (sortByLE le xs)
      (sortByLE_pairwise le htot htrans xs)

/-- C7: `sortTicketsByKey` returns a permutation of its input that is
ordered first alphabetically by project key (code-point order) and, among
tickets of the same project, by descending numeric suffix; in particular
the keys `["A-1", "B-5", "A-10"]` sort to `["A-10", "A-1", "B-5"]`. -/
theorem sortTicketsByKey_spec :
    (∀ (α : Type) (key : α → List Char) (ts : List α),
        (sortTicketsByKey key ts).Perm ts ∧
        (sortTicketsByKey key ts).Pairwise
          (fun a b => SpecTicketOrder (parseTicketKey (key a)) (parseTicketKey (key b)))) ∧
    sortTicketsByKey (fun k => k) ["A-1".toList, "B-5".toList, "A-10".toList] =
      ["A-10".toList, "A-1".toList, "B-5".toList] := by
  constructor
  · intro α key ts
    refine ⟨sortByLE_perm _ ts, ?_⟩
    have hp := sortByLE_pairwise (ticketLE key) (ticketLE_total key) (ticketLE_trans key) ts
    exact hp.imp (fun h => (ticketLE_iff key _ _).mp h)
  · decide

/-! ## C5: ticket-id extraction -/

theorem pref_takeWhile {p : Char → Bool} :
    ∀ {u l : List Char}, u <+: l → (∀ c ∈ u, p c = true) → u <+: l.takeWhile p
  | [], l, _, _ => List.nil_prefix
  | u :: us, l, hpre, hall => by
    obtain ⟨t, ht⟩ := hpre
    subst ht
    simp only [List.cons_append, List.takeWhile]
    rw [hall u (List.mem_cons_self u us)]
    exact List.cons_prefix_cons.mpr
      ⟨rfl, pref_takeWhile ⟨t, rfl⟩ fun c hc => hall c (List.mem_cons_of_mem u hc)⟩

theorem pat_decompose {d : List Char} :
    ∀ {mid rest : List Char}, mid ++ '-' :: d <+: rest →
      (∀ c ∈ mid, isKeyChar c = true) →
      rest.takeWhile isKeyChar = mid ∧
      ∃ tail, rest.dropWhile isKeyChar = '-' :: (d ++ tail) := by
  intro mid
  induction mid with
  | nil =>
    intro rest hpre _
    obtain ⟨t, ht⟩ := hpre
    subst ht
    have hdash : isKeyChar '-' = false := by decide
    constructor
    · simp [List.takeWhile, hdash]
    · exact ⟨t, by simp [List.dropWhile, hdash]⟩
  | cons m ms ih =>
    intro rest hpre hall
    obtain ⟨t, ht⟩ := hpre
    subst ht
    have hm : isKeyChar m = true := hall m (List.mem_cons_self m ms)
    have hpre' : ms ++ '-' :: d <+: (ms ++ '-' :: d) ++ t := ⟨t, rfl⟩
    have hih := ih hpre' (fun c hc => hall c (List.mem_cons_of_mem m hc))
    constructor
    · simp only [List.cons_append, List.takeWhile, hm, if_true, List.append_eq]
      rw [hih.1]
    · obtain ⟨tail, htail⟩ := hih.2
      refine ⟨tail, ?_⟩
      simp only [List.cons_append, List.dropWhile, hm, if_true, List.append_eq]
      exact htail
theorem extract_some_decomp {s q : List Char} (h : extractTicketId s = some q) :
    ∃ a rest rest3, s = a :: rest ∧ isUpperAZ a = true ∧
      rest.dropWhile isKeyChar = '-' :: rest3 ∧
      rest3.takeWhile isDigit09 ≠ [] ∧
      q = a :: (rest.takeWhile isKeyChar ++ '-' :: rest3.takeWhile isDigit09) := by
  cases s with
  | nil => simp [extractTicketId] at h
  | cons a rest =>
    by_cases ha : isUpperAZ a = true
    · simp only [extractTicketId, ha, if_true] at h
      split at h
      · rename_i rest2 rest3 heq
        split at h
        · simp at h
        · rename_i hne
          injection h with h
          simp only [List.span_eq_take_drop] at heq hne h
          refine ⟨a, rest, rest3, rfl, ha, heq, ?_, h.symm⟩
          intro hnil
          rw [hnil] at hne
          simp at hne
      · simp at h
    · simp [extractTicketId, ha] at h
theorem extractTicketId_sound {s q : List Char} (h : extractTicketId s = some q) :
    q <+: s ∧ IsTicketPat q := by
  obtain ⟨a, rest, rest3, rfl, ha, hd, hne, rfl⟩ := extract_some_decomp h
  constructor
  · refine ⟨rest3.dropWhile isDigit09, ?_⟩
    have h1 := List.takeWhile_append_dropWhile isKeyChar rest
    have h2 := List.takeWhile_append_dropWhile isDigit09 rest3
    conv_rhs => rw [← h1, hd, ← h2]
    simp [List.cons_append, List.append_assoc]
  · refine ⟨a, rest.takeWhile isKeyChar, rest3.takeWhile isDigit09, rfl, ha, ?_, hne, ?_⟩
    · intro c hc
      exact List.mem_takeWhile_imp hc
    · intro c hc
      exact List.mem_takeWhile_imp hc

theorem extractTicketId_max {s q : List Char} (h : extractTicketId s = some q) :
    ∀ r, r <+: s → IsTicketPat r → r.length ≤ q.length := by
  obtain ⟨a, rest, rest3, rfl, ha, hd, hne, rfl⟩ := extract_some_decomp h
  rintro r hr ⟨b, mid, d, rfl, hb, hmid, hdne, hdig⟩
  rw [List.cons_prefix_cons] at hr
  obtain ⟨rfl, hr'⟩ := hr
  obtain ⟨hmid_eq, tail, htail⟩ := pat_decompose hr' hmid
  rw [hd] at htail
  injection htail with _ h3
  have hdpre : d <+: rest3.takeWhile isDigit09 := by
    rw [h3]
    exact pref_takeWhile ⟨tail, rfl⟩ hdig
  have hlen : d.length ≤ (rest3.takeWhile isDigit09).length := hdpre.length_le
  have hmlen : mid.length = (rest.takeWhile isKeyChar).length := by rw [hmid_eq]
  simp only [List.length_cons, List.length_append]
  omega

theorem extractTicketId_complete {s r : List Char} (hr : r <+: s) (hp : IsTicketPat r) :
    ∃ q, extractTicketId s = some q := by
  obtain ⟨b, mid, d, rfl, hb, hmid, hdne, hdig⟩ := hp
  obtain ⟨t, rfl⟩ := hr
  have hpre' : mid ++ '-' :: d <+: (mid ++ '-' :: d) ++ t := ⟨t, rfl⟩
  obtain ⟨htw, tail, hdw⟩ := pat_decompose hpre' hmid
  have hdg : d <+: List.takeWhile isDigit09 (d ++ tail) := pref_takeWhile ⟨tail, rfl⟩ hdig
  have hne' : List.takeWhile isDigit09 (d ++ tail) ≠ [] := by
    intro h0
    obtain ⟨u, hu⟩ := hdg
    rw [h0] at hu
    obtain ⟨hd0, _⟩ := List.append_eq_nil.mp hu
    exact hdne hd0
  simp only [List.cons_append, extractTicketId, hb, if_true, List.span_eq_take_drop, hdw]
  simp [List.isEmpty_eq_false_iff_exists_mem, hne']

theorem isTicketPat_iff_extract (p : List Char) :
    IsTicketPat p ↔ extractTicketId p = some p := by
  constructor
  · intro hp
    obtain ⟨q, hq⟩ := extractTicketId_complete (List.prefix_refl p) hp
    have hsound := extractTicketId_sound hq
    have hmax := extractTicketId_max hq p (List.prefix_refl p) hp
    have hql : q.length ≤ p.length := hsound.1.length_le
    have heq : q = p := hsound.1.eq_of_length (le_antisymm hql hmax)
    exact heq ▸ hq
  · intro h
    exact (extractTicketId_sound h).2

/-- C5: for every branch name beginning with a (maximal) prefix matching
`[A-Z][A-Z0-9]*-\d+`, `extractTicketId` returns exactly that prefix; for
every branch name not beginning with such a pattern it returns `none`. -/
theorem extractTicketId_spec :
    (∀ (s p : List Char), p <+: s → IsTicketPat p →
        (∀ q, q <+: s → IsTicketPat q → q.length ≤ p.length) →
        extractTicketId s = some p) ∧
    (∀ s : List Char, (∀ q, q <+: s → ¬IsTicketPat q) → extractTicketId s = none) := by
  constructor
  · intro s p hpre hpat hmax
    obtain ⟨q, hq⟩ := extractTicketId_complete hpre hpat
    have hsound := extractTicketId_sound hq
    have h1 : q.length ≤ p.length := hmax q hsound.1 hsound.2
    have h2 : p.length ≤ q.length := extractTicketId_max hq p hpre hpat
    have hpq : p <+: q := List.prefix_of_prefix_length_le hpre hsound.1 (by omega)
    have heq : p = q := hpq.eq_of_length (by omega)
    rw [heq]
    exact hq
  · intro s hno
    cases hq : extractTicketId s with
    | none => rfl
    | some q =>
      have hsound := extractTicketId_sound hq
      exact absurd hsound.2 (hno q hsound.1)

theorem pat_prefix_bound_of_inits {s : List Char} {n : Nat}
    (h : ∀ q ∈ s.inits, extractTicketId q = some q → q.length ≤ n) :
    ∀ q, q <+: s → IsTicketPat q → q.length ≤ n := fun q hq hp =>
  h q ((List.mem_inits q s).mpr hq) ((isTicketPat_iff_extract q).mp hp)

theorem no_pat_pref_of_inits {s : List Char}
    (h : ∀ q ∈ s.inits, ¬extractTicketId q = some q) :
    ∀ q, q <+: s → ¬IsTicketPat q := fun q hq hp =>
  h q ((List.mem_inits q s).mpr hq) ((isTicketPat_iff_extract q).mp hp)

/-- Witness for C5 at concrete branch names. -/
theorem extractTicketId_spec_witness :
    extractTicketId "PROJ-7/add-login-page".toList = some "PROJ-7".toList ∧
    extractTicketId "feature/oauth".toList = none :=
  ⟨extractTicketId_spec.1 "PROJ-7/add-login-page".toList "PROJ-7".toList (by decide)
     ((isTicketPat_iff_extract "PROJ-7".toList).mpr (by decide))
     (pat_prefix_bound_of_inits (by decide)),
   extractTicketId_spec.2 "feature/oauth".toList (no_pat_pref_of_inits (by decide))⟩

/-! ## C10: SelectList safety -/

theorem slApplyQuery_inv {ι : Type} (cfg : SLConfig ι) (st : SLState ι) (q : List Char)
    (h : SLInv st) : SLInv (slApplyQuery cfg st q) := by
  unfold slApplyQuery
  split
  · exact h
  · intro hlen
    dsimp only at hlen ⊢
    constructor <;> omega

theorem slApplyQuery_idx {ι : Type} (cfg : SLConfig ι) (st : SLState ι) (q : List Char)
    (h : (slApplyQuery cfg st q).query ≠ st.query) : (slApplyQuery cfg st q).idx = 0 := by
  unfold slApplyQuery at h ⊢
  by_cases hc : q = st.query
  · rw [if_pos hc] at h
    exact absurd rfl h
  · rw [if_neg hc]

theorem slInput_inv {ι : Type} (cfg : SLConfig ι) (st : SLState ι) (k : KeyEvt)
    (h : SLInv st) : SLInv (slInput cfg st k).1 := by
  unfold slInput
  split
  · exact h
  · split
    · exact h
    · split
      · intro hlen
        dsimp only at hlen ⊢
        have := h hlen
        split <;> constructor <;> omega
      · split
        · intro hlen
          dsimp only at hlen ⊢
          have := h hlen
          split <;> constructor <;> omega
        · split
          · split
            · exact slApplyQuery_inv cfg st _ h
            · split
              · split
                · exact slApplyQuery_inv cfg st _ h
                · exact h
              · exact h
          · exact h

theorem slReach_inv {ι : Type} {cfg : SLConfig ι} {st : SLState ι}
    (h : SLReach cfg st) : SLInv st := by
  induction h with
  | init cfg =>
    intro hlen
    dsimp only [slInit] at hlen ⊢
    constructor <;> omega
  | step cfg s k hr ih => exact slInput_inv cfg s k ih
  | itemsStep cfg cfg' s hr ih =>
    intro hlen
    dsimp only [slItemsEffect] at hlen ⊢
    constructor <;> omega

/-- C10: pressing enter in a `SelectList` whose filtered list is empty
invokes no selection callback and changes no state; any event that changes
the search query resets the selection index to 0, as does every re-run of
the filtering effect after an `items` prop change; and in every reachable
state, enter on a non-empty filtered list selects an actual item at an
in-bounds index of the currently filtered list (never the out-of-bounds
`undefined`). -/
theorem selectList_spec :
    (∀ (ι : Type) (cfg : SLConfig ι) (st : SLState ι),
        st.filtered = [] → slInput cfg st enterEvt = (st, SLOut.none)) ∧
    (∀ (ι : Type) (cfg : SLConfig ι) (st : SLState ι) (k : KeyEvt),
        (slInput cfg st k).1.query ≠ st.query → (slInput cfg st k).1.idx = 0) ∧
    (∀ (ι : Type) (cfg : SLConfig ι) (st : SLState ι),
        (slItemsEffect cfg st).idx = 0) ∧
    (∀ (ι : Type) (cfg : SLConfig ι) (st : SLState ι),
        SLReach cfg st → 0 < st.filtered.length →
        ∃ it, slInput cfg st enterEvt = (st, SLOut.selected (some it))) := by
  refine ⟨?_, ?_, ?_, ?_⟩
  · intro ι cfg st hst
    simp [slInput, enterEvt, hst]
  · intro ι cfg st k
    unfold slInput
    split
    · intro hq
      exact absurd rfl hq
    · split
      · intro hq
        exact absurd rfl hq
      · split
        · intro hq
          exact absurd rfl hq
        · split
          · intro hq
            exact absurd rfl hq
          · split
            · split
              · intro hq
                exact slApplyQuery_idx cfg st _ hq
              · split
                · split
                  · intro hq
                    exact slApplyQuery_idx cfg st _ hq
                  · intro hq
                    exact absurd rfl hq
                · intro hq
                  exact absurd rfl hq
            · intro hq
              exact absurd rfl hq
  · intro ι cfg st
    rfl
  · intro ι cfg st hreach hlen
    have hinv := slReach_inv hreach hlen
    have hnn : ¬st.idx < 0 := by omega
    have hlt : st.idx.toNat < st.filtered.length := by omega
    have hsome : st.filtered.get? st.idx.toNat =
        some (st.filtered.get ⟨st.idx.toNat, hlt⟩) := List.get?_eq_get hlt
    refine ⟨st.filtered.get ⟨st.idx.toNat, hlt⟩, ?_⟩
    unfold slInput
    rw [if_neg (by simp [enterEvt])]
    rw [if_pos (by simp [enterEvt, hlen])]
    rw [if_neg hnn, hsome]

/-- Witness for C10 at a concrete configuration. -/
theorem selectList_spec_witness :
    slInput slCfgW slEmptyW enterEvt = (slEmptyW, SLOut.none) ∧
    (slInput slCfgW (slInit slCfgW) charAEvt).1.idx = 0 ∧
    (slItemsEffect slCfgW (slInit slCfgW)).idx = 0 ∧
    (∃ it, slInput slCfgW (slInit slCfgW) enterEvt =
        (slInit slCfgW, SLOut.selected (some it))) :=
  ⟨selectList_spec.1 Nat slCfgW slEmptyW rfl,
   selectList_spec.2.1 Nat slCfgW (slInit slCfgW) charAEvt (by decide),
   selectList_spec.2.2.1 Nat slCfgW (slInit slCfgW),
   selectList_spec.2.2.2 Nat slCfgW (slInit slCfgW) (SLReach.init slCfgW) (by decide)⟩

end JH
